import Mathlib

/-!
Verification of the replit_meta_lingua TTS pipeline against its
natural-language specification.  Python floats are modelled as exact
rationals, Python dictionaries as structures or association lists, and
fallible operations as `Except`/`Option` values.
-/

namespace QAGate

/-- The scalar metrics consumed by
`AudioQualityAnalyzer._validate_quality_standards` (src/tts_pipeline/qa.py).
Each field is the value stored in the analysis `results` dict under the key
of the same name.  Python floats are modelled as rationals (the code never
relies on float rounding for these comparisons). -/
structure QualityMetrics where
  duration : ℚ
  silence_ratio : ℚ
  max_pause_duration : ℚ
  peak_db : ℚ
  estimated_lufs : ℚ
  rms_db : ℚ

/-- The boolean outcome of each threshold check, mirroring the `checks`
dict built by `_validate_quality_standards`. -/
structure QualityChecks where
  duration_ok : Bool
  silence_ok : Bool
  pause_ok : Bool
  peak_ok : Bool
  lufs_ok : Bool
  rms_ok : Bool
  overall_pass : Bool

/-- `AudioQualityAnalyzer.quality_standards` (qa.py, `__init__`). -/
def min_duration : ℚ := 30
def max_duration : ℚ := 600
def max_silence_ratio : ℚ := 0.20
def max_pause_duration_std : ℚ := 1.2
def min_lufs : ℚ := -23
def max_lufs : ℚ := -14
def max_peak_db : ℚ := -1.0
def min_rms_db : ℚ := -40

/-- `AudioQualityAnalyzer._validate_quality_standards` (qa.py lines 231-279):
each check compares a metric against the fixed standards; `overall_pass`
is `all(...)` over the four critical checks
`duration_ok, silence_ok, pause_ok, peak_ok`. -/
def validate_quality_standards (m : QualityMetrics) : QualityChecks :=
  let duration_ok := decide (min_duration ≤ m.duration ∧ m.duration ≤ max_duration)
  let silence_ok := decide (m.silence_ratio ≤ max_silence_ratio)
  let pause_ok := decide (m.max_pause_duration ≤ max_pause_duration_std)
  let peak_ok := decide (m.peak_db ≤ max_peak_db)
  let lufs_ok := decide (min_lufs ≤ m.estimated_lufs ∧ m.estimated_lufs ≤ max_lufs)
  let rms_ok := decide (m.rms_db ≥ min_rms_db)
  { duration_ok := duration_ok
    silence_ok := silence_ok
    pause_ok := pause_ok
    peak_ok := peak_ok
    lufs_ok := lufs_ok
    rms_ok := rms_ok
    overall_pass := duration_ok && silence_ok && pause_ok && peak_ok }

end QAGate

namespace TTSM

/-- `TTSEngine` (src/tts_system/tts_interface.py lines 17-23). -/
inductive TTSEngine where
  | edge_tts
  | bark
  | pyttsx3
  | gtts
  | system_tts
deriving DecidableEq, Repr

/-- `TTSEngine.value` - the string tag of each enum member. -/
def TTSEngine.value : TTSEngine → String
  | .edge_tts => "edge_tts"
  | .bark => "bark"
  | .pyttsx3 => "pyttsx3"
  | .gtts => "gtts"
  | .system_tts => "system"

/-- The behaviour of one registered provider during a single manager call:
its `is_offline` flag and the outcome of its `synthesize_async` call
(`Except.error` models a raised exception, carrying the exception text).
The base result payload is an abstract type `α` (the manager never
inspects it, it only adds bookkeeping keys). -/
structure Provider (α : Type) where
  is_offline : Bool
  outcome : Except String α

/-- The dict returned by `TTSManager.synthesize` on success: the provider
result plus the keys the manager adds (`engine_used`, `is_offline`,
`used_fallback`). -/
structure ManagerResult (α : Type) where
  base : α
  engine_used : String
  is_offline : Bool
  used_fallback : Bool
deriving DecidableEq, Repr

/-- The state of a `TTSManager`: the provider registry (a partial map, as
`self.providers` only holds available providers) and the two preference
slots set by `_set_engine_preferences`. -/
structure Manager (α : Type) where
  providers : TTSEngine → Option (Provider α)
  preferred_engine : Option TTSEngine
  fallback_engine : Option TTSEngine

/-- The engine-resolution block of `TTSManager.synthesize`
(tts_interface.py lines 160-169): `target_engine = engine or
self.preferred_engine`; if that is `None` or not a key of
`self.providers`, fall back to `self.fallback_engine` when set, else
raise `RuntimeError("No TTS engines available")`. -/
def resolve_target_engine (m : Manager α) (engine : Option TTSEngine) :
    Except String TTSEngine :=
  match engine.orElse (fun _ => m.preferred_engine) with
  | some t =>
    if (m.providers t).isSome then .ok t
    else
      match m.fallback_engine with
      | some f => .ok f
      | none => .error "No TTS engines available"
  | none =>
    match m.fallback_engine with
    | some f => .ok f
    | none => .error "No TTS engines available"

/-- `TTSManager.synthesize` (tts_interface.py lines 151-192), for one call.
Returns the outcome together with the list of engines whose
`synthesize_async` was actually invoked, in order (the attempt log).
Looking up a missing key of `self.providers` raises a `KeyError`. -/
def Manager.synthesize (m : Manager α) (engine : Option TTSEngine) :
    Except String (ManagerResult α) × List TTSEngine :=
  match resolve_target_engine m engine with
  | .error msg => (.error msg, [])
  | .ok target =>
    match m.providers target with
    | none => (.error "KeyError", [])
    | some p =>
      match p.outcome with
      | .ok r =>
        (.ok { base := r, engine_used := target.value, is_offline := p.is_offline,
               used_fallback := false }, [target])
      | .error e =>
        match m.fallback_engine with
        | some f =>
          if f ≠ target then
            match m.providers f with
            | none => (.error "KeyError", [target])
            | some fp =>
              match fp.outcome with
              | .ok r =>
                (.ok { base := r, engine_used := f.value, is_offline := fp.is_offline,
                       used_fallback := true }, [target, f])
              | .error e2 => (.error e2, [target, f])
          else (.error e, [target])
        | none => (.error e, [target])

/-- The spec's resolution order, following the claim's words: walk
explicit argument, then preferred, then fallback, and use the first
candidate that names an available engine; fail when none does.  Declared
only to be compared with `resolve_target_engine`, which embeds the code. -/
def claim_resolution_order (m : Manager α) (engine : Option TTSEngine) :
    Option TTSEngine :=
  ((engine.toList ++ m.preferred_engine.toList ++ m.fallback_engine.toList).find?
    (fun e => (m.providers e).isSome))

/-- A provider whose synthesis raises (as in the repo's own fallback test,
tests/test_tts_system.py line 168). -/
def providerFailing : Provider String :=
  { is_offline := false, outcome := .error "Primary failed" }

/-- A provider whose synthesis succeeds with an abstract payload. -/
def providerWorking : Provider String :=
  { is_offline := true, outcome := .ok "audio" }

/-- Manager with a failing preferred engine and no fallback. -/
def mgrNoFallback : Manager String :=
  { providers := fun e => match e with
      | .edge_tts => some providerFailing
      | _ => none
    preferred_engine := some .edge_tts
    fallback_engine := none }

/-- Manager with a failing preferred engine and a working fallback
(the configuration of tests/test_tts_system.py lines 173-179). -/
def mgrWithFallback : Manager String :=
  { providers := fun e => match e with
      | .edge_tts => some providerFailing
      | .pyttsx3 => some providerWorking
      | _ => none
    preferred_engine := some .edge_tts
    fallback_engine := some .pyttsx3 }

/-- Manager where `edge_tts` and `bark` are available but `gtts` is not;
preferred is `edge_tts`, fallback is `bark`. -/
def mgrExplicitUnavailable : Manager String :=
  { providers := fun e => match e with
      | .edge_tts => some providerWorking
      | .bark => some providerWorking
      | _ => none
    preferred_engine := some .edge_tts
    fallback_engine := some .bark }

end TTSM

namespace CLIV

/-- A Python value stored under `duration_sec`/`vocab_count`: either an
`int` (so `isinstance(x, int)` holds) or some non-int value. -/
inductive PyVal where
  | intV (i : ℤ)
  | otherV
deriving DecidableEq, Repr

/-- The CLI argument dict checked by `ConfigValidator.validate_cli_args`
(src/tts_pipeline/utils.py lines 163-193).  `none` models a key that is
absent or maps to `None` (the two cases produce identical error lists:
every string-valued check also rejects `None`, and a `None` duration or
vocab count fails the `isinstance` check just as the 0 default fails the
range check). -/
structure CliArgs where
  goal : Option String
  level : Option String
  topic : Option String
  duration_sec : Option PyVal
  vocab_count : Option PyVal
deriving DecidableEq, Repr

/-- `valid_goals` (utils.py line 174). -/
def valid_goals : List String := ["general", "toefl", "ielts", "pte", "business"]

/-- `valid_levels` (utils.py line 179). -/
def valid_levels : List String := ["A1", "A2", "B1", "B2", "C1", "C2"]

/-- `ConfigValidator.validate_cli_args` (utils.py lines 163-193): the
required-argument loop over `goal, level, topic, duration_sec`, then the
goal/level enumeration checks, then the integer range checks on
`duration_sec` (30-600) and `vocab_count` (1-50), appending one message
per failing check, in program order. -/
def validate_cli_args (args : CliArgs) : List String :=
  (if args.goal.isNone then ["Missing required argument: goal"] else []) ++
  (if args.level.isNone then ["Missing required argument: level"] else []) ++
  (if args.topic.isNone then ["Missing required argument: topic"] else []) ++
  (if args.duration_sec.isNone then ["Missing required argument: duration_sec"] else []) ++
  (if (args.goal.map valid_goals.contains).getD false then []
   else ["Invalid goal. Must be one of: [general, toefl, ielts, pte, business]"]) ++
  (if (args.level.map valid_levels.contains).getD false then []
   else ["Invalid level. Must be one of: [A1, A2, B1, B2, C1, C2]"]) ++
  (match args.duration_sec.getD (.intV 0) with
   | .intV d => if d < 30 ∨ 600 < d then ["Duration must be integer between 30-600 seconds"] else []
   | .otherV => ["Duration must be integer between 30-600 seconds"]) ++
  (match args.vocab_count.getD (.intV 0) with
   | .intV v => if v < 1 ∨ 50 < v then ["Vocab count must be integer between 1-50"] else []
   | .otherV => ["Vocab count must be integer between 1-50"])

/-- Args satisfying every check of the claim but with `topic` absent. -/
def argsMissingTopic : CliArgs :=
  { goal := some "general", level := some "B2", topic := none,
    duration_sec := some (.intV 60), vocab_count := some (.intV 10) }

/-- Fully valid args. -/
def argsGood : CliArgs :=
  { goal := some "ielts", level := some "B2", topic := some "swimming lesson",
    duration_sec := some (.intV 60), vocab_count := some (.intV 10) }

/-- Valid args except for an out-of-range duration. -/
def argsBadDuration : CliArgs :=
  { goal := some "ielts", level := some "B2", topic := some "swimming lesson",
    duration_sec := some (.intV 25), vocab_count := some (.intV 10) }

end CLIV

namespace Policy

/-- `AccentConfig` (src/tts_pipeline/policy.py lines 8-12). -/
structure AccentConfig where
  listening_accents : List String
  vocabulary_accents : List String

/-- `AccentPolicy.POLICIES` via `get_accent_config` (policy.py lines 17-28):
dict lookup on the lower-cased goal with default `'general'`. -/
def get_accent_config (goal : String) : AccentConfig :=
  match goal.toLower with
  | "general" => ⟨["US", "US_FEMALE"], ["US", "US_FEMALE"]⟩
  | "toefl" => ⟨["US", "US_FEMALE"], ["US", "US_FEMALE"]⟩
  | "ielts" => ⟨["UK", "UK_FEMALE", "US", "AU"], ["UK", "UK_FEMALE"]⟩
  | "pte" => ⟨["UK", "AU", "US", "CA", "IN"], ["UK", "UK_FEMALE"]⟩
  | "business" =>
    ⟨["US", "UK", "IN", "AR_L2", "ZH_L2", "US_FEMALE", "UK_FEMALE"], ["US", "US_FEMALE"]⟩
  | _ => ⟨["US", "US_FEMALE"], ["US", "US_FEMALE"]⟩

/-- The Python `random` module, modelled as an arbitrary deterministic
pseudo-random generator over a state type `σ`: `seedFn` is `random.seed`,
`randomFn` is `random.random` (a rational in [0,1)), `choiceIdx` draws the
index picked by `random.choice` from a population of the given size, and
`choicesIdx` draws the `k` indices picked by `random.choices`.  All are
plain functions: the generator is deterministic given its state, which is
exactly what CPython's Mersenne-Twister `random` is. -/
structure PyRandom (σ : Type) where
  seedFn : ℤ → σ
  randomFn : σ → ℚ × σ
  choiceIdx : σ → Nat → Nat × σ
  choicesIdx : σ → Nat → Nat → List Nat × σ

/-- `random.choice(population)` on a modelled generator. -/
def pyChoice (R : PyRandom σ) (st : σ) (population : List String) : String × σ :=
  let (i, st2) := R.choiceIdx st population.length
  (population.getD i "", st2)

/-- `random.choices(population, k=k)` on a modelled generator. -/
def pyChoices (R : PyRandom σ) (st : σ) (population : List String) (k : Nat) :
    List String × σ :=
  let (is, st2) := R.choicesIdx st population.length k
  (is.map (fun i => population.getD i ""), st2)

/-- `AccentPolicy.select_accents_for_listening` (policy.py lines 31-51):
seeds the global generator when a seed is supplied, then draws.  For IELTS
with two speakers: with probability 0.7 two draws from the UK voices, else
one UK draw and one US/AU draw; otherwise `random.choices` over the
configured listening accents. -/
def select_accents_for_listening (R : PyRandom σ) (goal : String)
    (num_speakers : Nat) (seed : Option ℤ) (st : σ) : List String × σ :=
  let st := match seed with
    | some s => R.seedFn s
    | none => st
  let config := get_accent_config goal
  let accents := config.listening_accents
  if goal.toLower = "ielts" ∧ num_speakers = 2 then
    let (r, st2) := R.randomFn st
    if r < 0.7 then
      pyChoices R st2 ["UK", "UK_FEMALE"] num_speakers
    else
      let (a, st3) := pyChoice R st2 ["UK", "UK_FEMALE"]
      let (b, st4) := pyChoice R st3 ["US", "AU"]
      ([a, b], st4)
  else
    pyChoices R st accents num_speakers

/-- `AccentPolicy.select_accent_for_vocabulary` (policy.py lines 53-60):
seeds with `seed + 1` when a seed is supplied, then one `random.choice`
over the configured vocabulary accents. -/
def select_accent_for_vocabulary (R : PyRandom σ) (goal : String)
    (seed : Option ℤ) (st : σ) : String × σ :=
  let st := match seed with
    | some s => R.seedFn (s + 1)
    | none => st
  let config := get_accent_config goal
  pyChoice R st config.vocabulary_accents

end Policy

namespace PyStr

/-- ASCII whitespace as stripped by Python `str.strip()`. -/
def wsChar (c : Char) : Bool := c = ' ' || c = '\t' || c = '\n' || c = '\r'

/-- Python `str.strip()` (whitespace from both ends). -/
def py_strip (s : String) : String :=
  ⟨((s.data.dropWhile wsChar).reverse.dropWhile wsChar).reverse⟩

/-- ASCII lower-casing of one character (the texts in this repository are
ASCII, where Python `str.lower()` agrees with this). -/
def lowerChar (c : Char) : Char :=
  if 'A' ≤ c ∧ c ≤ 'Z' then Char.ofNat (c.toNat + 32) else c

/-- Python `str.lower()`. -/
def py_lower (s : String) : String := ⟨s.data.map lowerChar⟩

/-- Whether `p` is a prefix of `s`, as lists of characters. -/
def prefixB : List Char → List Char → Bool
  | [], _ => true
  | _ :: _, [] => false
  | a :: as, b :: bs => a = b && prefixB as bs

/-- Python `s.startswith(p)`. -/
def py_startswith (s p : String) : Bool := prefixB p.data s.data

/-- Python `s.endswith(p)`. -/
def py_endswith (s p : String) : Bool := prefixB p.data.reverse s.data.reverse

/-- Whether `p` occurs as a contiguous substring of `s` (Python `p in s`). -/
def infixB (p s : List Char) : Bool :=
  match s with
  | [] => prefixB p []
  | _ :: rest => prefixB p s || infixB p rest

/-- Python `sub in s` on strings. -/
def py_contains (s sub : String) : Bool := infixB sub.data s.data

/-- Python `s[:n]`. -/
def py_take (s : String) (n : Nat) : String := ⟨s.data.take n⟩

end PyStr

namespace Mixing

open PyStr

/-- Python `max(a, b)` on two floats, modelled on ℚ. -/
def pyMax (a b : ℚ) : ℚ := if a < b then b else a

/-- One input segment of `ConversationMixer._calculate_conversation_timing`
(src/tts_pipeline/mixing.py lines 53-92): its text and the duration of its
audio file (3.0 is substituted upstream when the file cannot be loaded). -/
structure SegIn where
  text : String
  duration : ℚ

/-- One output segment: the input enriched with the computed
`start_time`/`end_time`. -/
structure TimedSeg where
  text : String
  start_time : ℚ
  end_time : ℚ
  duration : ℚ

/-- `ConversationMixer._calculate_natural_gap` (mixing.py lines 94-122):
the `base_gaps` table keyed by the text classifier (previous utterance
ends in `?` → 0.8; current starts with a hesitation marker → 1.2; current
starts with a short agreement word → 0.1; else → 0.5), plus the
`random.uniform(-0.1, 0.2)` variation (the `variation` argument), clamped
below by `max(0.05, ...)`. -/
def calculate_natural_gap (prev_text curr_text : String) (variation : ℚ) : ℚ :=
  let prev := py_strip prev_text
  let curr := py_strip curr_text
  let base_gap : ℚ :=
    if py_endswith prev "?" then 0.8
    else if ["well", "um", "uh"].any (fun w => py_startswith (py_lower curr) w) then 1.2
    else if ["yes", "no", "right"].any (fun w => py_startswith (py_lower curr) w) then 0.1
    else 0.5
  pyMax 0.05 (base_gap + variation)

/-- The claim's account of the same gap - the fixed table plus the uniform
jitter, with no lower clamp.  Declared only to be compared with
`calculate_natural_gap`, which embeds the code. -/
def claim_natural_gap (prev_text curr_text : String) (variation : ℚ) : ℚ :=
  let prev := py_strip prev_text
  let curr := py_strip curr_text
  let base_gap : ℚ :=
    if py_endswith prev "?" then 0.8
    else if ["well", "um", "uh"].any (fun w => py_startswith (py_lower curr) w) then 1.2
    else if ["yes", "no", "right"].any (fun w => py_startswith (py_lower curr) w) then 0.1
    else 0.5
  base_gap + variation

/-- `ConversationMixer._should_overlap` (mixing.py lines 124-137). -/
def should_overlap (prev_text curr_text : String) : Bool :=
  let curr_lower := py_lower (py_strip curr_text)
  (["but", "actually", "wait", "no", "yes exactly"].any
      (fun w => py_startswith curr_lower w)) ||
  (["right", "exactly", "absolutely", "definitely"].any
      (fun w => py_contains (py_take curr_lower 20) w))

/-- `ConversationMixer._calculate_overlap_duration` (mixing.py lines
139-145): 150 ms base overlap plus `random.uniform(-0.05, 0.1)`, clamped
below by 0.05. -/
def calculate_overlap_duration (variation : ℚ) : ℚ := pyMax 0.05 (0.15 + variation)

/-- The loop body of `_calculate_conversation_timing` (mixing.py lines
59-91).  `gapJ i` and `ovJ i` are the `random.uniform` draws consumed at
iteration `i` by `_calculate_natural_gap` and
`_calculate_overlap_duration`; indexing the oracle streams by the
iteration number is faithful because each iteration makes at most one
draw of each kind. -/
def timingGo (gapJ ovJ : Nat → ℚ) (add_overlaps : Bool) :
    List SegIn → Nat → Option TimedSeg → List TimedSeg
  | [], _, _ => []
  | s :: rest, i, prev =>
    let start : ℚ :=
      match prev with
      | none => 0
      | some p =>
        if add_overlaps && should_overlap p.text s.text then
          p.end_time - calculate_overlap_duration (ovJ i)
        else
          p.end_time + calculate_natural_gap p.text s.text (gapJ i)
    let ts : TimedSeg := ⟨s.text, start, start + s.duration, s.duration⟩
    ts :: timingGo gapJ ovJ add_overlaps rest (i + 1) (some ts)

/-- `ConversationMixer._calculate_conversation_timing` (mixing.py lines
53-92). -/
def calculate_conversation_timing (segs : List SegIn) (gapJ ovJ : Nat → ℚ)
    (add_overlaps : Bool) : List TimedSeg :=
  timingGo gapJ ovJ add_overlaps segs 0 none

/-- Concrete two-turn conversation: a question followed by a hesitating
answer, stitched without overlaps. -/
def segsQuestion : List SegIn :=
  [⟨"Shall we start?", 2⟩, ⟨"Well, maybe", 3/2⟩]

/-- Concrete two-turn conversation whose second turn starts with the
agreement word "yes". -/
def segsAgree : List SegIn :=
  [⟨"Okay.", 2⟩, ⟨"Yes", 1⟩]

end Mixing

/-- A JSON value as handled by Python's `json` module: the repository
serializes metadata dicts with `json.dump` and the HTTP layer returns
JSON objects.  Python ints are modelled exactly (ℤ) and floats as exact
rationals. -/
inductive Json where
  | null
  | jbool (b : Bool)
  | num (n : ℤ)
  | fnum (q : ℚ)
  | str (s : String)
  | arr (elems : List Json)
  | obj (fields : List (String × Json))

/-- Association-list lookup on a JSON object's fields (first match, as in
a Python dict built from distinct keys). -/
def lookupField : List (String × Json) → String → Option Json
  | [], _ => none
  | (k', v) :: rest, k => if k' = k then some v else lookupField rest k

/-- Look a key up in a JSON value (`none` unless it is an object with the
key). -/
def Json.lookup (j : Json) (k : String) : Option Json :=
  match j with
  | .obj fields => lookupField fields k
  | _ => none

/-- Whether a JSON value is an object carrying the given key. -/
def Json.hasKey (j : Json) (k : String) : Bool := (j.lookup k).isSome

namespace Whisper

/-- One element of the Whisper result's `segments` list, as consumed by
`transcribe_audio` (src/whisper_server.py lines 81-88): a dict read with
`.get("start", 0)`, `.get("end", 0)`, `.get("text", "")`. -/
structure WhisperSegment where
  seg_start : Option ℚ
  seg_end : Option ℚ
  seg_text : Option String

/-- The dict returned by `whisper_model.transcribe`: `text` is `some s`
when `result["text"]` is a str (the `isinstance` check in line 74),
`language`/`duration` are read with `.get`, and a missing `segments` key
behaves like the empty list. -/
structure WhisperResult where
  text : Option String
  language : Option String
  duration : Option ℚ
  segments : List WhisperSegment

/-- `language or "en"` - Python's falsy-default on the form field. -/
def language_or_en (language : Option String) : String :=
  match language with
  | some l => if l = "" then "en" else l
  | none => "en"

/-- The JSON object built for one segment (whisper_server.py lines 82-87). -/
def segment_json (seg : WhisperSegment) : Json :=
  .obj [("start", .fnum (seg.seg_start.getD 0)),
        ("end", .fnum (seg.seg_end.getD 0)),
        ("text", .str (seg.seg_text.getD ""))]

/-- The `verbose_json` response body (whisper_server.py lines 76-89). -/
def verbose_response (r : WhisperResult) (language : Option String) : Json :=
  let text_content := match r.text with
    | some s => PyStr.py_strip s
    | none => ""
  .obj [("text", .str text_content),
        ("language", .str (r.language.getD (language_or_en language))),
        ("duration", .fnum (r.duration.getD 0)),
        ("segments", .arr (r.segments.map segment_json))]

/-- The default (`"json"`) response body (whisper_server.py lines 90-93). -/
def simple_response (r : WhisperResult) : Json :=
  let text_content := match r.text with
    | some s => PyStr.py_strip s
    | none => ""
  .obj [("text", .str text_content)]

/-- `transcribe_audio` (whisper_server.py lines 41-106) for one request:
a 503 when the model failed to load, a 500 wrapping the exception text
when transcription raises, otherwise a JSON body that depends on
`response_format`.  Errors are `(HTTP status, detail)` pairs, modelling
`HTTPException`. -/
def transcribe_audio (model_loaded : Bool)
    (transcribe_result : Except String WhisperResult)
    (language : Option String) (response_format : String) :
    Except (Nat × String) Json :=
  if model_loaded = false then .error (503, "Whisper model not loaded")
  else
    match transcribe_result with
    | .error e => .error (500, "Transcription failed: " ++ e)
    | .ok r =>
      if response_format = "verbose_json" then .ok (verbose_response r language)
      else .ok (simple_response r)

/-- A concrete successful transcription result. -/
def resultHello : WhisperResult :=
  { text := some "hello", language := some "en", duration := some 1, segments := [] }

end Whisper

namespace QAWrap

/-- The report returned by `AudioQualityAnalyzer.analyze_audio_quality`
(qa.py lines 26-70), restricted to the fields the claim is about: the
`overall_pass` flag, the `error` entry present only in the except-branch,
and the `quality_check` sub-dict present only on success. -/
structure QAReport where
  overall_pass : Bool
  error : Option String
  quality_check : Option QAGate.QualityChecks

/-- `AudioQualityAnalyzer.analyze_audio_quality` (qa.py lines 26-70).
The whole try-block - `librosa.load` plus every metric computation, any
of which may raise - is modelled by its outcome `analysis`: `.ok` with
the metrics dict it would store into `results`, or `.error` with the
exception text.  The except-branch returns a report with
`overall_pass = False` and the error string; the success branch copies
`quality_check.overall_pass`. -/
def analyze_audio_quality (analysis : Except String QAGate.QualityMetrics) : QAReport :=
  match analysis with
  | .ok metrics =>
    let qc := QAGate.validate_quality_standards metrics
    { overall_pass := qc.overall_pass, error := none, quality_check := some qc }
  | .error e =>
    { overall_pass := false, error := some e, quality_check := none }

end QAWrap

namespace Silence

/-- `frame_length = int(sr * 0.025)` (qa.py line 98); exact arithmetic,
which agrees with the float product at the sample rates used here. -/
def frame_length (sr : ℕ) : ℕ := sr * 25 / 1000

/-- `hop_length = int(sr * 0.010)` (qa.py line 99). -/
def hop_length (sr : ℕ) : ℕ := sr * 10 / 1000

/-- `librosa.util.frame` produces `1 + (n - frame_length) // hop_length`
frames (it requires `n ≥ frame_length`). -/
def n_frames (n fl hop : ℕ) : ℕ := 1 + (n - fl) / hop

/-- `frame_energy = np.sum(frames ** 2, axis=0)` (qa.py lines 102-104),
as written: `librosa.util.frame(audio_data, frame_length, hop_length,
axis=0)` yields an array of shape `(n_frames, frame_length)` with
`frames[j][k] = x[j*hop + k]`, so summing over `axis=0` sums over the
FRAME index `j`, producing one energy per within-frame offset `k` - a
vector of length `frame_length`, not one energy per frame. -/
def frame_energy (x : ℕ → ℚ) (n sr : ℕ) : List ℚ :=
  let fl := frame_length sr
  let hop := hop_length sr
  let nf := n_frames n fl hop
  (List.range fl).map (fun k => ((List.range nf).map (fun j => (x (j * hop + k)) ^ 2)).sum)

/-- Modelled from the spec: the per-frame energies the comments and the
spec describe ("frame-wise silence detector", `total_frames`,
`silent_frames`), i.e. what `np.sum(frames ** 2, axis=1)` would give:
one energy per frame `j`. -/
def frame_energy_per_frame (x : ℕ → ℚ) (n sr : ℕ) : List ℚ :=
  let fl := frame_length sr
  let hop := hop_length sr
  let nf := n_frames n fl hop
  (List.range nf).map (fun j => ((List.range fl).map (fun k => (x (j * hop + k)) ^ 2)).sum)

/-- `np.median`: sort ascending; odd length → middle element, even
length → mean of the two middle elements.  (The empty case never arises
in the uses below.) -/
def np_median (l : List ℚ) : ℚ :=
  let s := l.mergeSort (fun a b => a ≤ b)
  if l.length % 2 = 1 then s.getD (l.length / 2) 0
  else (s.getD (l.length / 2 - 1) 0 + s.getD (l.length / 2) 0) / 2

/-- The silence statistics of qa.py lines 106-116 applied to an energy
vector: adaptive threshold at 1% of the median energy, silent entries
strictly below it, ratio of silent count over total (0 when empty). -/
def silence_ratio_of (energies : List ℚ) : ℚ :=
  let med := np_median energies
  let threshold := med * 0.01
  let silent := (energies.filter (fun e => decide (e < threshold))).length
  let total := energies.length
  if 0 < total then (silent : ℚ) / (total : ℚ) else 0

/-- The `silence_ratio` computed by `_analyze_silence` (qa.py lines
94-129) on a waveform given as an indexing function and length. -/
def silence_ratio (x : ℕ → ℚ) (n sr : ℕ) : ℚ :=
  silence_ratio_of (frame_energy x n sr)

/-- Modelled from the spec: the silence ratio the spec describes, using
per-frame energies. -/
def silence_ratio_per_frame (x : ℕ → ℚ) (n sr : ℕ) : ℚ :=
  silence_ratio_of (frame_energy_per_frame x n sr)

/-- The claim's synthetic waveform at a 1 kHz sample rate: 1 s of
full-scale alternating-sign noise, 2 s of exact zeros, 1 s of noise
(4000 samples in total). -/
def synth_signal (i : ℕ) : ℚ :=
  if i < 1000 then (if i % 2 = 0 then 1 else -1)
  else if i < 3000 then 0
  else (if i % 2 = 0 then 1 else -1)

/-- Whether sample `i` of the synthetic waveform lies in a noise region. -/
def noiseB (i : ℕ) : Bool := decide (i < 1000) || decide (3000 ≤ i)

/-- Number of noise samples seen by within-frame offset `k` across the
398 frames (the as-written axis-0 energy of offset `k`). -/
def countA (k : ℕ) : ℕ :=
  ((List.range 398).filter (fun j => noiseB (j * 10 + k))).length

/-- Number of noise samples inside frame `j` (the per-frame energy). -/
def countF (j : ℕ) : ℕ :=
  ((List.range 25).filter (fun k => noiseB (j * 10 + k))).length

end Silence

namespace MetaJson

/-- A character `json.dump` writes verbatim inside a string literal:
anything except the quote and the backslash (controls and non-ASCII never
occur in the pipeline's metadata). -/
def plainChar (c : Char) : Bool := !(c = '"' || c = '\\')

/-- A string `json.dump` writes verbatim between quotes. -/
def plainStr (s : String) : Bool := s.data.all plainChar

mutual
/-- `plainJson j`: every string (keys included) of `j` is written
verbatim by `json.dump`, and `j` holds no floats.  All metadata the
pipeline writes satisfies this. -/
def plainJson : Json → Bool
  | .null => true
  | .jbool _ => true
  | .num _ => true
  | .fnum _ => false
  | .str s => plainStr s
  | .arr xs => plainList xs
  | .obj fs => plainFields fs
def plainList : List Json → Bool
  | [] => true
  | x :: xs => plainJson x && plainList xs
def plainFields : List (String × Json) → Bool
  | [] => true
  | (k, v) :: fs => plainStr k && plainJson v && plainFields fs
end

/-- The character of a decimal digit. -/
def digitChar (d : ℕ) : Char := Char.ofNat (48 + d)

/-- Decimal rendering of a natural number, as `repr` prints it. -/
def natChars (n : ℕ) : List Char :=
  if n = 0 then ['0'] else ((Nat.digits 10 n).reverse.map digitChar)

/-- Decimal rendering of a Python int. -/
def intChars (n : ℤ) : List Char :=
  if n < 0 then '-' :: natChars n.natAbs else natChars n.toNat

mutual
/-- Serialization of a JSON value to characters - `json.dump` with
compact separators.  (The repository passes `indent=2`, which only adds
whitespace; the parser below skips whitespace, so the round-trip result
is the same.)  The `fnum` case is unreachable for plain values. -/
def printJson : Json → List Char
  | .null => ['n', 'u', 'l', 'l']
  | .jbool true => ['t', 'r', 'u', 'e']
  | .jbool false => ['f', 'a', 'l', 's', 'e']
  | .num n => intChars n
  | .fnum _ => ['0']
  | .str s => '"' :: (s.data ++ ['"'])
  | .arr xs => '[' :: (printList xs ++ [']'])
  | .obj fs => '\x7b' :: (printFields fs ++ ['\x7d'])
def printList : List Json → List Char
  | [] => []
  | [x] => printJson x
  | x :: xs => printJson x ++ ',' :: printList xs
def printFields : List (String × Json) → List Char
  | [] => []
  | [(k, v)] => '"' :: (k.data ++ '"' :: ':' :: printJson v)
  | (k, v) :: fs => ('"' :: (k.data ++ '"' :: ':' :: printJson v)) ++ ',' :: printFields fs
end

mutual
/-- Fuel sufficient to parse a printed value (one unit per node). -/
def fuelJson : Json → ℕ
  | .null => 1
  | .jbool _ => 1
  | .num _ => 1
  | .fnum _ => 1
  | .str _ => 1
  | .arr xs => 1 + fuelElems xs
  | .obj fs => 1 + fuelFields fs
def fuelElems : List Json → ℕ
  | [] => 0
  | x :: xs => 1 + fuelJson x + fuelElems xs
def fuelFields : List (String × Json) → ℕ
  | [] => 0
  | (_, v) :: fs => 1 + fuelJson v + fuelFields fs
end

/-- Skip JSON whitespace. -/
def skipWs : List Char → List Char
  | c :: cs => if PyStr.wsChar c then skipWs cs else c :: cs
  | [] => []

/-- Decimal digit test. -/
def isDigitB (c : Char) : Bool := '0' ≤ c && c ≤ '9'

/-- Value of a digit character. -/
def digitVal (c : Char) : ℕ := c.toNat - 48

/-- Read a maximal run of digits. -/
def readDigits : List Char → List ℕ × List Char
  | c :: cs =>
    if isDigitB c then
      let (ds, r) := readDigits cs
      (digitVal c :: ds, r)
    else ([], c :: cs)
  | [] => ([], [])

/-- The number denoted by a most-significant-first digit list. -/
def digitsToNat (ds : List ℕ) : ℕ := Nat.ofDigits 10 ds.reverse

/-- Read the body of a string literal up to the closing quote (plain
strings contain no escapes). -/
def readStringChars : List Char → Option (List Char × List Char)
  | [] => none
  | c :: cs =>
    if c = '"' then some ([], cs)
    else
      match readStringChars cs with
      | some (s, r) => some (c :: s, r)
      | none => none

/-- Whether a list starts with the given character. -/
def headIs : List Char → Char → Bool
  | c :: _, d => c = d
  | [], _ => false

mutual
/-- Recursive-descent JSON reader (`json.load`), with explicit fuel. -/
def parseJson : ℕ → List Char → Option (Json × List Char)
  | 0, _ => none
  | fuel + 1, cs =>
    match skipWs cs with
    | [] => none
    | c :: r =>
      if isDigitB c then
        match readDigits (c :: r) with
        | (ds, r2) => some (.num (digitsToNat ds : ℤ), r2)
      else if c = '-' then
        match readDigits r with
        | ([], _) => none
        | (ds, r2) => some (.num (-(digitsToNat ds : ℤ)), r2)
      else if c = '"' then
        match readStringChars r with
        | some (s, r2) => some (.str ⟨s⟩, r2)
        | none => none
      else if c = '[' then
        let r' := skipWs r
        if headIs r' ']' then some (.arr [], r'.tail)
        else
          match parseElems fuel r' with
          | some (xs, r3) => some (.arr xs, r3)
          | none => none
      else if c = '\x7b' then
        let r' := skipWs r
        if headIs r' '\x7d' then some (.obj [], r'.tail)
        else
          match parseFields fuel r' with
          | some (fs, r3) => some (.obj fs, r3)
          | none => none
      else
        match c :: r with
        | 'n' :: 'u' :: 'l' :: 'l' :: r2 => some (.null, r2)
        | 't' :: 'r' :: 'u' :: 'e' :: r2 => some (.jbool true, r2)
        | 'f' :: 'a' :: 'l' :: 's' :: 'e' :: r2 => some (.jbool false, r2)
        | _ => none
def parseElems : ℕ → List Char → Option (List Json × List Char)
  | 0, _ => none
  | fuel + 1, cs =>
    match parseJson fuel cs with
    | some (x, r) =>
      (match skipWs r with
      | ',' :: r2 =>
        (match parseElems fuel r2 with
        | some (xs, r3) => some (x :: xs, r3)
        | none => none)
      | ']' :: r2 => some ([x], r2)
      | _ => none)
    | none => none
def parseFields : ℕ → List Char → Option (List (String × Json) × List Char)
  | 0, _ => none
  | fuel + 1, cs =>
    match skipWs cs with
    | '"' :: r =>
      (match readStringChars r with
      | some (k, r2) =>
        (match skipWs r2 with
        | ':' :: r3 =>
          (match parseJson fuel r3 with
          | some (v, r4) =>
            (match skipWs r4 with
            | ',' :: r5 =>
              (match parseFields fuel r5 with
              | some (fs, r6) => some ((⟨k⟩, v) :: fs, r6)
              | none => none)
            | '\x7d' :: r5 => some ([(⟨k⟩, v)], r5)
            | _ => none)
          | none => none)
        | _ => none)
      | none => none)
    | _ => none
end

/-- `json.dumps` of a value. -/
def dumpJson (j : Json) : String := ⟨printJson j⟩

/-- `json.load` of a serialized value: parse, then reject trailing
non-whitespace. -/
def loadJson (s : String) : Option Json :=
  match parseJson (s.data.length + 1) s.data with
  | some (j, rest) => if skipWs rest = [] then some j else none
  | none => none

/-- The guard under which a printed number is re-read unambiguously: the
following text must not begin with a digit.  (Trivially true for the
empty rest and for the `,`/`]`/`}` continuations inside arrays and
objects.) -/
def numGuard : Json → List Char → Prop
  | .num _, c :: _ => isDigitB c = false
  | _, _ => True

/-- The first character a printed value can start with. -/
def goodHead (c : Char) : Bool :=
  isDigitB c || c = '-' || c = '"' || c = '[' || c = '\x7b' || c = 'n' || c = 't' || c = 'f'

end MetaJson

namespace Meta1

/-- One entry of the `segments` list of the metadata dict built by
`IELTSAudioGenerator.generate_section1_conversation`
(src/tts_system/ielts_generator.py lines 78-86).  `voice_used` and
`engine_used` may be `None` (JSON `null`). -/
structure SegmentInfo where
  segment_id : ℤ
  speaker : String
  text : String
  file : String
  voice_used : Option String
  engine_used : Option String
  is_offline : Bool

/-- ASCII upper-casing of one character. -/
def upperChar (c : Char) : Char :=
  if 'a' ≤ c ∧ c ≤ 'z' then Char.ofNat (c.toNat - 32) else c

/-- Whether a character is an ASCII letter (a cased character in the
pipeline's ASCII conversation types). -/
def isAlphaB (c : Char) : Bool :=
  ('a' ≤ c && c ≤ 'z') || ('A' ≤ c && c ≤ 'Z')

/-- Python `str.title()` on ASCII text: uppercase a letter after a
non-letter, lowercase the rest. -/
def titleChars : List Char → Bool → List Char
  | [], _ => []
  | c :: cs, prevAlpha =>
    (if prevAlpha then PyStr.lowerChar c else upperChar c) :: titleChars cs (isAlphaB c)

/-- Python `str.title()`. -/
def py_title (s : String) : String := ⟨titleChars s.data false⟩

/-- Python `s.replace("_", " ")`. -/
def replace_underscores (s : String) : String :=
  ⟨s.data.map (fun c => if c = '_' then ' ' else c)⟩

/-- The JSON object for one segment (ielts_generator.py lines 78-86). -/
def segment_info_json (s : SegmentInfo) : Json :=
  .obj [("segment_id", .num s.segment_id),
        ("speaker", .str s.speaker),
        ("text", .str s.text),
        ("file", .str s.file),
        ("voice_used", match s.voice_used with | some v => .str v | none => .null),
        ("engine_used", match s.engine_used with | some e => .str e | none => .null),
        ("is_offline", .jbool s.is_offline)]

/-- The metadata dict written by `generate_section1_conversation`
(ielts_generator.py lines 104-114), as the JSON value `json.dump`
serializes.  `file_exists` models `Path(s['file']).exists()`. -/
def build_metadata (conversation_type generated_at html_player : String)
    (segments : List SegmentInfo) (file_exists : String → Bool)
    (selected_engine : TTSM.TTSEngine) (use_offline_only : Bool) : Json :=
  .obj [("title",
          .str ("IELTS Section 1 - " ++ py_title (replace_underscores conversation_type))),
        ("generated_at", .str generated_at),
        ("total_segments", .num (segments.length : ℤ)),
        ("successful_segments",
          .num (((segments.filter (fun s => file_exists s.file)).length : ℤ))),
        ("engine_used", .str selected_engine.value),
        ("is_offline_compatible", .jbool use_offline_only),
        ("conversation_type", .str conversation_type),
        ("html_player", .str html_player),
        ("segments", .arr (segments.map segment_info_json))]

/-- A concrete segment record for the witness. -/
def segEx : SegmentInfo :=
  { segment_id := 1, speaker := "receptionist",
    text := "Good morning, Riverside Swimming Centre.",
    file := "ielts_audio/segment_01_receptionist.wav",
    voice_used := some "en-GB-SoniaNeural", engine_used := some "edge_tts",
    is_offline := false }

/-- The concrete metadata value for the witness. -/
def metadataEx : Json :=
  build_metadata "swimming_lesson" "2026-10-12T00:00:00" "ielts_swimming_lesson_online.html"
    [segEx] (fun _ => true) .edge_tts false

end Meta1

/-- C1: every individual check of the quality gate holds iff its metric is
within the fixed threshold ([30,600] s duration, ≤0.20 silence ratio,
≤1.2 s max pause, ≤ −1 dBFS peak, [−23,−14] LUFS, ≥ −40 dBFS RMS), and
`overall_pass` is exactly the conjunction of the four gating checks
(duration, silence, pause, peak) — so turning any one of those four false
with the others held constant forces `overall_pass = false`, while the
LUFS and RMS checks do not gate. -/
theorem C1_quality_gate_validate (m : QAGate.QualityMetrics) :
    let c := QAGate.validate_quality_standards m
    (c.duration_ok = true ↔ (30 ≤ m.duration ∧ m.duration ≤ 600)) ∧
    (c.silence_ok = true ↔ m.silence_ratio ≤ 0.20) ∧
    (c.pause_ok = true ↔ m.max_pause_duration ≤ 1.2) ∧
    (c.peak_ok = true ↔ m.peak_db ≤ -1) ∧
    (c.lufs_ok = true ↔ (-23 ≤ m.estimated_lufs ∧ m.estimated_lufs ≤ -14)) ∧
    (c.rms_ok = true ↔ -40 ≤ m.rms_db) ∧
    c.overall_pass = (c.duration_ok && c.silence_ok && c.pause_ok && c.peak_ok) ∧
    (c.overall_pass = true ↔
      (c.duration_ok = true ∧ c.silence_ok = true ∧ c.pause_ok = true ∧ c.peak_ok = true)) := by
  refine ⟨?_, ?_, ?_, ?_, ?_, ?_, rfl, ?_⟩ <;>
    simp [QAGate.validate_quality_standards, QAGate.min_duration, QAGate.max_duration,
      QAGate.max_silence_ratio, QAGate.max_pause_duration_std, QAGate.min_lufs,
      QAGate.max_lufs, QAGate.max_peak_db, QAGate.min_rms_db, and_assoc]
  norm_num

/-- Helper: the attempt log of a single `TTSManager.synthesize` call never
holds more than two engines (at most one fallback attempt ever happens). -/
theorem synthesize_attempts_le_two {α : Type} (m : TTSM.Manager α)
    (engine : Option TTSM.TTSEngine) :
    (m.synthesize engine).2.length ≤ 2 := by
  unfold TTSM.Manager.synthesize
  repeat' split
  all_goals simp

/-- C2 (amended): when the resolved engine's synthesis raises, the manager
retries exactly once against the fallback when one exists and differs from
the engine just tried — on fallback success it returns the fallback's
result tagged `used_fallback`, on fallback failure the fallback's
exception propagates; with no usable fallback the original exception
propagates unchanged.  No `SynthesisUnavailable` error exists in the code:
the propagated error is the underlying exception itself.  The attempt log
never exceeds two entries, so there is never more than one fallback
attempt. -/
theorem C2_single_fallback_retry {α : Type} (m : TTSM.Manager α)
    (engine : Option TTSM.TTSEngine) (t : TTSM.TTSEngine) (p : TTSM.Provider α)
    (e : String)
    (hres : TTSM.resolve_target_engine m engine = .ok t)
    (hp : m.providers t = some p)
    (he : p.outcome = .error e) :
    (m.fallback_engine = none → m.synthesize engine = (.error e, [t])) ∧
    (m.fallback_engine = some t → m.synthesize engine = (.error e, [t])) ∧
    (∀ f fp, m.fallback_engine = some f → f ≠ t → m.providers f = some fp →
      (∀ r, fp.outcome = .ok r →
        m.synthesize engine =
          (.ok { base := r, engine_used := f.value, is_offline := fp.is_offline,
                 used_fallback := true }, [t, f])) ∧
      (∀ e2, fp.outcome = .error e2 → m.synthesize engine = (.error e2, [t, f]))) ∧
    (m.synthesize engine).2.length ≤ 2 := by
  refine ⟨?_, ?_, ?_, synthesize_attempts_le_two m engine⟩
  · intro hfb
    simp only [TTSM.Manager.synthesize, hres, hp, he, hfb]
  · intro hfb
    simp only [TTSM.Manager.synthesize, hres, hp, he, hfb]
    simp
  · intro f fp hfb hne hpf
    constructor
    · intro r hr
      simp only [TTSM.Manager.synthesize, hres, hp, he, hfb, hpf, hr, hne, ne_eq,
        not_false_iff, if_true]
    · intro e2 he2
      simp only [TTSM.Manager.synthesize, hres, hp, he, hfb, hpf, he2, hne, ne_eq,
        not_false_iff, if_true]

/-- C2 witness: in the concrete failing-preferred / working-fallback
configuration, the theorem's hypotheses hold and the manager returns the
fallback's result after exactly the two attempts `[edge_tts, pyttsx3]`. -/
theorem C2_single_fallback_retry_witness :
    TTSM.resolve_target_engine TTSM.mgrWithFallback none = .ok .edge_tts ∧
    TTSM.mgrWithFallback.providers .edge_tts = some TTSM.providerFailing ∧
    TTSM.providerFailing.outcome = .error "Primary failed" ∧
    TTSM.mgrWithFallback.synthesize none =
      (.ok { base := "audio", engine_used := "pyttsx3", is_offline := true,
             used_fallback := true }, [.edge_tts, .pyttsx3]) := by
  refine ⟨rfl, rfl, rfl, ?_⟩
  have h := C2_single_fallback_retry TTSM.mgrWithFallback none .edge_tts
    TTSM.providerFailing "Primary failed" rfl rfl rfl
  exact (h.2.2.1 .pyttsx3 TTSM.providerWorking rfl (by decide) rfl).1 "audio" rfl

/-- C2 counterexample: with no fallback available the propagated error is
the engine's own exception text, not a `SynthesisUnavailable` error — the
claim's "failing with SynthesisUnavailable" does not hold on the code. -/
theorem C2_no_SynthesisUnavailable_counterexample :
    TTSM.mgrNoFallback.synthesize none = (.error "Primary failed", [.edge_tts]) ∧
    "Primary failed" ≠ "SynthesisUnavailable" := by
  exact ⟨rfl, by decide⟩

/-- C3 (amended): the engine actually used is `engine or preferred` when
that names an available engine; when it does not (explicit argument naming
an unavailable engine included), the code goes directly to the fallback
engine — it does not reconsider the preferred engine — and only when no
fallback is set does the call fail with the "No TTS engines available"
error, in which case no synthesis is ever attempted (empty attempt log). -/
theorem C3_engine_resolution (α : Type) (m : TTSM.Manager α)
    (engine : Option TTSM.TTSEngine) :
    (∀ e, engine = some e → (m.providers e).isSome →
        TTSM.resolve_target_engine m engine = .ok e) ∧
    (engine = none → ∀ p, m.preferred_engine = some p → (m.providers p).isSome →
        TTSM.resolve_target_engine m engine = .ok p) ∧
    ((engine.orElse (fun _ => m.preferred_engine) = none ∨
      (∃ t, engine.orElse (fun _ => m.preferred_engine) = some t ∧ m.providers t = none)) →
      (∀ f, m.fallback_engine = some f → TTSM.resolve_target_engine m engine = .ok f) ∧
      (m.fallback_engine = none →
        TTSM.resolve_target_engine m engine = .error "No TTS engines available")) ∧
    (∀ msg, TTSM.resolve_target_engine m engine = .error msg →
        msg = "No TTS engines available" ∧ (m.synthesize engine).2 = []) := by
  refine ⟨?_, ?_, ?_, ?_⟩
  · intro e he hav
    subst he
    simp [TTSM.resolve_target_engine, Option.orElse, hav]
  · intro he p hp hav
    subst he
    simp [TTSM.resolve_target_engine, Option.orElse, hp, hav]
  · intro hbad
    constructor
    · intro f hf
      rcases hbad with hnone | ⟨t, ht, hmiss⟩
      · simp only [TTSM.resolve_target_engine, hnone, hf]
      · simp only [TTSM.resolve_target_engine, ht, hmiss, Option.isSome_none,
          Bool.false_eq_true, if_false, hf]
    · intro hf
      rcases hbad with hnone | ⟨t, ht, hmiss⟩
      · simp only [TTSM.resolve_target_engine, hnone, hf]
      · simp only [TTSM.resolve_target_engine, ht, hmiss, Option.isSome_none,
          Bool.false_eq_true, if_false, hf]
  · intro msg hmsg
    constructor
    · unfold TTSM.resolve_target_engine at hmsg
      repeat' split at hmsg
      all_goals cases hmsg
      all_goals rfl
    · simp only [TTSM.Manager.synthesize, hmsg]

/-- C3 witness: in the no-fallback configuration with an unavailable
explicit engine and no preferred engine, resolution fails with the
"No TTS engines available" error and the attempt log stays empty; and
with an explicit available engine it is used. -/
theorem C3_engine_resolution_witness :
    TTSM.resolve_target_engine TTSM.mgrWithFallback (some .edge_tts) = .ok .edge_tts ∧
    ((TTSM.mgrNoFallback.providers .gtts).isSome = false ∧
      TTSM.resolve_target_engine
        { providers := TTSM.mgrNoFallback.providers, preferred_engine := none,
          fallback_engine := none } (some .gtts) = .error "No TTS engines available") := by
  refine ⟨?_, by decide, ?_⟩
  · exact (C3_engine_resolution String TTSM.mgrWithFallback (some .edge_tts)).1
      .edge_tts rfl (by decide)
  · exact ((C3_engine_resolution String _ (some .gtts)).2.2.1
      (Or.inr ⟨.gtts, rfl, rfl⟩)).2 rfl

/-- C3 counterexample: with explicit argument `gtts` (unavailable),
preferred `edge_tts` (available) and fallback `bark` (available), the code
resolves to the fallback `bark`, while the claim's resolution order
(explicit, else preferred, else fallback, first available) yields
`edge_tts` — so the claim's order does not describe the code. -/
theorem C3_resolution_order_counterexample :
    TTSM.resolve_target_engine TTSM.mgrExplicitUnavailable (some .gtts) = .ok .bark ∧
    TTSM.claim_resolution_order TTSM.mgrExplicitUnavailable (some .gtts) =
      some .edge_tts ∧
    (TTSM.TTSEngine.bark ≠ TTSM.TTSEngine.edge_tts) := by
  exact ⟨rfl, rfl, by decide⟩

/-- C4 (amended): the error list of `validate_cli_args` is empty exactly
when the goal is one of the enumerated exam types, the level one of the
CEFR levels, the duration an integer in [30, 600], the vocabulary count an
integer in [1, 50], AND the topic is present (the claim omits the topic
requirement); in particular any integer duration outside [30, 600] is
always rejected. -/
theorem C4_cli_validation (args : CLIV.CliArgs) :
    (CLIV.validate_cli_args args = [] ↔
      (args.topic.isSome ∧
       (match args.goal with
        | some g => g ∈ CLIV.valid_goals
        | none => False) ∧
       (match args.level with
        | some l => l ∈ CLIV.valid_levels
        | none => False) ∧
       (match args.duration_sec with
        | some (.intV d) => 30 ≤ d ∧ d ≤ 600
        | _ => False) ∧
       (match args.vocab_count with
        | some (.intV v) => 1 ≤ v ∧ v ≤ 50
        | _ => False))) ∧
    (∀ d : ℤ, args.duration_sec = some (.intV d) → (d < 30 ∨ 600 < d) →
        CLIV.validate_cli_args args ≠ []) := by
  obtain ⟨g, l, t, d, v⟩ := args
  constructor
  · rcases d with _ | (di | _) <;> rcases v with _ | (vi | _) <;>
      rcases g with _ | g <;> rcases l with _ | l <;> rcases t with _ | t <;>
      simp [CLIV.validate_cli_args, CLIV.valid_goals, CLIV.valid_levels,
        not_or, not_lt, and_assoc] <;>
      (try omega) <;> tauto
  · intro dd hdd hout
    subst hdd
    rcases v with _ | (vi | _) <;>
      rcases g with _ | g <;> rcases l with _ | l <;> rcases t with _ | t <;>
      simp [CLIV.validate_cli_args, CLIV.valid_goals, CLIV.valid_levels] <;>
      omega

/-- C4 witness: fully valid concrete args pass with an empty error list,
and the same args with duration 25 are rejected. -/
theorem C4_cli_validation_witness :
    CLIV.validate_cli_args CLIV.argsGood = [] ∧
    CLIV.argsBadDuration.duration_sec = some (.intV 25) ∧
    CLIV.validate_cli_args CLIV.argsBadDuration ≠ [] := by
  refine ⟨?_, rfl, ?_⟩
  · exact (C4_cli_validation CLIV.argsGood).1.mpr
      (by norm_num [CLIV.argsGood, CLIV.valid_goals, CLIV.valid_levels])
  · exact (C4_cli_validation CLIV.argsBadDuration).2 25 rfl (by decide)

/-- C4 counterexample: args meeting all four enumerated conditions of the
claim but with `topic` missing are still rejected (non-empty error list),
so the claim's "empty exactly when" equivalence fails on the code. -/
theorem C4_missing_topic_counterexample :
    (CLIV.argsMissingTopic.goal = some "general" ∧ "general" ∈ CLIV.valid_goals) ∧
    (CLIV.argsMissingTopic.level = some "B2" ∧ "B2" ∈ CLIV.valid_levels) ∧
    CLIV.argsMissingTopic.duration_sec = some (.intV 60) ∧
    CLIV.argsMissingTopic.vocab_count = some (.intV 10) ∧
    CLIV.validate_cli_args CLIV.argsMissingTopic =
      ["Missing required argument: topic"] := by
  refine ⟨⟨rfl, by decide⟩, ⟨rfl, by decide⟩, rfl, rfl, by decide⟩

/-- C8: with a seed supplied, accent selection for listening and for
vocabulary are deterministic functions of their arguments: two runs from
arbitrary (possibly different) prior generator states produce identical
accent lists, for every generator model, exam type and speaker count. -/
theorem C8_seeded_selection_deterministic (σ : Type) (R : Policy.PyRandom σ)
    (goal : String) (num_speakers : Nat) (s : ℤ) (st1 st2 : σ) :
    Policy.select_accents_for_listening R goal num_speakers (some s) st1 =
      Policy.select_accents_for_listening R goal num_speakers (some s) st2 ∧
    Policy.select_accent_for_vocabulary R goal (some s) st1 =
      Policy.select_accent_for_vocabulary R goal (some s) st2 := by
  constructor <;> rfl

/-- Helper: `pyMax` is the mathematical maximum. -/
theorem pyMax_eq_max (a b : ℚ) : Mixing.pyMax a b = max a b := by
  unfold Mixing.pyMax
  rcases lt_trichotomy a b with h | h | h
  · rw [if_pos h]; exact (max_eq_right h.le).symm
  · subst h; simp
  · rw [if_neg (not_lt.mpr h.le)]; exact (max_eq_left h.le).symm

/-- Helper: the start/end times of consecutive segments produced by the
timing loop. -/
theorem timingGo_get_succ (gapJ ovJ : Nat → ℚ) (ao : Bool) :
    ∀ (segs : List Mixing.SegIn) (i k : Nat) (prev : Option Mixing.TimedSeg)
      (ts ps : Mixing.TimedSeg) (cs : Mixing.SegIn),
      (Mixing.timingGo gapJ ovJ ao segs i prev).get? (k + 1) = some ts →
      (Mixing.timingGo gapJ ovJ ao segs i prev).get? k = some ps →
      segs.get? (k + 1) = some cs →
      ts.text = cs.text ∧
      ts.start_time =
        (if ao && Mixing.should_overlap ps.text cs.text then
          ps.end_time - Mixing.calculate_overlap_duration (ovJ (i + k + 1))
        else ps.end_time + Mixing.calculate_natural_gap ps.text cs.text (gapJ (i + k + 1))) ∧
      ts.end_time = ts.start_time + cs.duration := by
  intro segs
  induction segs with
  | nil =>
    intro i k prev ts ps cs h1 h2 h3
    simp [Mixing.timingGo] at h1
  | cons s rest ih =>
    intro i k prev ts ps cs h1 h2 h3
    cases k with
    | zero =>
      cases rest with
      | nil =>
        simp [Mixing.timingGo] at h1
      | cons c rest2 =>
        simp only [Mixing.timingGo, List.get?] at h1 h2 h3
        cases h1; cases h2; cases h3
        refine ⟨rfl, ?_, rfl⟩
        simp
    | succ k' =>
      simp only [Mixing.timingGo, List.get?] at h1 h2 h3
      have := ih (i + 1) k' _ ts ps cs h1 h2 h3
      have harith : i + 1 + k' + 1 = i + (k' + 1) + 1 := by omega
      rwa [harith] at this

/-- C6 (amended): for consecutive turns stitched without overlap, the gap
is `max(0.05, base + jitter)` where the base is chosen from the fixed
table in the claimed priority order (previous ends in `?` → 0.8; current
starts with a hesitation marker → 1.2; current starts with a short
agreement word → 0.1; else → 0.5) - the claim misses the lower clamp at
0.05 s - and the current turn's start time is the previous turn's end time
plus that clamped gap. -/
theorem C6_natural_gap_timing :
    (∀ (prev curr : String) (j : ℚ),
      (PyStr.py_endswith (PyStr.py_strip prev) "?" = true →
        Mixing.calculate_natural_gap prev curr j = max 0.05 (0.8 + j)) ∧
      (PyStr.py_endswith (PyStr.py_strip prev) "?" = false →
        ((["well", "um", "uh"].any
            (fun w => PyStr.py_startswith (PyStr.py_lower (PyStr.py_strip curr)) w)) = true →
          Mixing.calculate_natural_gap prev curr j = max 0.05 (1.2 + j)) ∧
        ((["well", "um", "uh"].any
            (fun w => PyStr.py_startswith (PyStr.py_lower (PyStr.py_strip curr)) w)) = false →
          ((["yes", "no", "right"].any
              (fun w => PyStr.py_startswith (PyStr.py_lower (PyStr.py_strip curr)) w)) = true →
            Mixing.calculate_natural_gap prev curr j = max 0.05 (0.1 + j)) ∧
          ((["yes", "no", "right"].any
              (fun w => PyStr.py_startswith (PyStr.py_lower (PyStr.py_strip curr)) w)) = false →
            Mixing.calculate_natural_gap prev curr j = max 0.05 (0.5 + j))))) ∧
    (∀ (segs : List Mixing.SegIn) (gJ oJ : Nat → ℚ) (k : Nat)
       (ts ps : Mixing.TimedSeg) (cs : Mixing.SegIn),
      (Mixing.calculate_conversation_timing segs gJ oJ false).get? (k + 1) = some ts →
      (Mixing.calculate_conversation_timing segs gJ oJ false).get? k = some ps →
      segs.get? (k + 1) = some cs →
      ts.start_time = ps.end_time + Mixing.calculate_natural_gap ps.text cs.text (gJ (k + 1))) := by
  constructor
  · intro prev curr j
    refine ⟨?_, ?_⟩
    · intro h
      simp [Mixing.calculate_natural_gap, h, pyMax_eq_max]
    · intro h
      refine ⟨?_, ?_⟩
      · intro h2
        simp [Mixing.calculate_natural_gap, h, h2, pyMax_eq_max]
      · intro h2
        refine ⟨?_, ?_⟩
        · intro h3
          simp [Mixing.calculate_natural_gap, h, h2, h3, pyMax_eq_max]
        · intro h3
          simp [Mixing.calculate_natural_gap, h, h2, h3, pyMax_eq_max]
  · intro segs gJ oJ k ts ps cs h1 h2 h3
    have := timingGo_get_succ gJ oJ false segs 0 k none ts ps cs h1 h2 h3
    simpa using this.2.1

/-- C6 witness: on the concrete question-then-hesitation conversation with
jitter 1/10 and no overlaps, the second turn starts at 2 + 0.9 = 2.9 s. -/
theorem C6_natural_gap_timing_witness :
    Mixing.calculate_natural_gap "Shall we start?" "Well, maybe" (1/10) = 9/10 ∧
    Mixing.calculate_conversation_timing Mixing.segsQuestion
        (fun _ => 1/10) (fun _ => 0) false =
      [⟨"Shall we start?", 0, 2, 2⟩, ⟨"Well, maybe", 29/10, 22/5, 3/2⟩] ∧
    ((Mixing.calculate_conversation_timing Mixing.segsQuestion
        (fun _ => 1/10) (fun _ => 0) false).get? 1).map Mixing.TimedSeg.start_time =
      some (2 + Mixing.calculate_natural_gap "Shall we start?" "Well, maybe" (1/10)) := by
  have hg : Mixing.calculate_natural_gap "Shall we start?" "Well, maybe" (1/10) = 9/10 := by
    have h := (C6_natural_gap_timing.1 "Shall we start?" "Well, maybe" (1/10)).1 (by decide)
    rw [h, show (0.8 + 1/10 : ℚ) = 9/10 by norm_num,
      max_eq_right (by norm_num : (0.05 : ℚ) ≤ 9/10)]
  have e : Mixing.calculate_conversation_timing Mixing.segsQuestion
      (fun _ => 1/10) (fun _ => 0) false =
      [⟨"Shall we start?", 0, 2, 2⟩, ⟨"Well, maybe", 29/10, 22/5, 3/2⟩] := by
    unfold Mixing.calculate_conversation_timing Mixing.segsQuestion
    simp only [Mixing.timingGo, Bool.false_and, if_false, Bool.false_eq_true]
    rw [hg]
    norm_num
  refine ⟨hg, e, ?_⟩
  have h2 := C6_natural_gap_timing.2 Mixing.segsQuestion (fun _ => 1/10) (fun _ => 0) 0
    ⟨"Well, maybe", 29/10, 22/5, 3/2⟩ ⟨"Shall we start?", 0, 2, 2⟩ ⟨"Well, maybe", 3/2⟩
    (by rw [e]; rfl) (by rw [e]; rfl) rfl
  rw [e]
  simpa using h2

/-- C6 counterexample: with the agreement word "yes" and jitter −0.1 the
code clamps the gap to 0.05 s, while the claim's table-plus-jitter value
is 0 s — the claim misses the `max(0.05, ...)` clamp. -/
theorem C6_clamp_counterexample :
    Mixing.calculate_natural_gap "Okay." "Yes" (-(1/10)) = 1/20 ∧
    Mixing.claim_natural_gap "Okay." "Yes" (-(1/10)) = 0 ∧
    ((1/20 : ℚ) ≠ 0) := by
  have h1 : PyStr.py_endswith (PyStr.py_strip "Okay.") "?" = false := by decide
  have h2 : (["well", "um", "uh"].any
      (fun w => PyStr.py_startswith (PyStr.py_lower (PyStr.py_strip "Yes")) w)) = false := by
    decide
  have h3 : (["yes", "no", "right"].any
      (fun w => PyStr.py_startswith (PyStr.py_lower (PyStr.py_strip "Yes")) w)) = true := by
    decide
  refine ⟨?_, ?_, by norm_num⟩
  · unfold Mixing.calculate_natural_gap
    simp only [h1, h2, h3, Bool.false_eq_true, if_false, if_true, pyMax_eq_max]
    rw [show (0.1 + -(1/10) : ℚ) = 0 by norm_num,
      max_eq_left (by norm_num : (0 : ℚ) ≤ 0.05)]
    norm_num
  · unfold Mixing.claim_natural_gap
    simp only [h1, h2, h3, Bool.false_eq_true, if_false, if_true]
    norm_num

/-- C9 (amended): a successful response always carries a `text` field;
it carries `language` and `segments` (each segment an object with
start/end/text) exactly when `response_format` is `"verbose_json"` - the
default `"json"` format returns only `text`.  When the model is not
loaded the endpoint fails with HTTP 503, and when transcription raises it
fails with HTTP 500; both are error statuses (≥ 400). -/
theorem C9_transcription_endpoint (model_loaded : Bool)
    (tr : Except String Whisper.WhisperResult) (language : Option String)
    (response_format : String) :
    (model_loaded = false →
      Whisper.transcribe_audio model_loaded tr language response_format =
        .error (503, "Whisper model not loaded")) ∧
    (model_loaded = true → ∀ e, tr = .error e →
      Whisper.transcribe_audio model_loaded tr language response_format =
        .error (500, "Transcription failed: " ++ e)) ∧
    (∀ st d, Whisper.transcribe_audio model_loaded tr language response_format =
        .error (st, d) → 400 ≤ st) ∧
    (model_loaded = true → ∀ r, tr = .ok r →
      (response_format = "verbose_json" →
        Whisper.transcribe_audio model_loaded tr language response_format =
          .ok (Whisper.verbose_response r language) ∧
        (Whisper.verbose_response r language).hasKey "text" = true ∧
        (Whisper.verbose_response r language).hasKey "language" = true ∧
        (Whisper.verbose_response r language).hasKey "segments" = true ∧
        (Whisper.verbose_response r language).lookup "segments" =
          some (.arr (r.segments.map Whisper.segment_json)) ∧
        (∀ seg, (Whisper.segment_json seg).hasKey "start" = true ∧
          (Whisper.segment_json seg).hasKey "end" = true ∧
          (Whisper.segment_json seg).hasKey "text" = true)) ∧
      (response_format ≠ "verbose_json" →
        Whisper.transcribe_audio model_loaded tr language response_format =
          .ok (Whisper.simple_response r) ∧
        (Whisper.simple_response r).hasKey "text" = true)) := by
  refine ⟨?_, ?_, ?_, ?_⟩
  · intro h
    simp [Whisper.transcribe_audio, h]
  · intro h e he
    simp [Whisper.transcribe_audio, h, he]
  · intro st d herr
    unfold Whisper.transcribe_audio at herr
    split at herr
    · cases herr; omega
    · split at herr
      · cases herr; omega
      · split at herr <;> cases herr
  · intro h r hr
    constructor
    · intro hfmt
      refine ⟨by simp [Whisper.transcribe_audio, h, hr, hfmt], ?_, ?_, ?_, ?_, ?_⟩
      · simp [Whisper.verbose_response, Json.hasKey, Json.lookup, lookupField]
      · simp [Whisper.verbose_response, Json.hasKey, Json.lookup, lookupField]
      · simp [Whisper.verbose_response, Json.hasKey, Json.lookup, lookupField]
      · simp [Whisper.verbose_response, Json.lookup, lookupField]
      · intro seg
        refine ⟨?_, ?_, ?_⟩ <;>
          simp [Whisper.segment_json, Json.hasKey, Json.lookup, lookupField]
    · intro hfmt
      refine ⟨by simp [Whisper.transcribe_audio, h, hr, hfmt], ?_⟩
      simp [Whisper.simple_response, Json.hasKey, Json.lookup, lookupField]

/-- C9 witness: concrete calls exercising the 503, 500, verbose and
default paths. -/
theorem C9_transcription_endpoint_witness :
    Whisper.transcribe_audio false (.ok Whisper.resultHello) none "json" =
      .error (503, "Whisper model not loaded") ∧
    Whisper.transcribe_audio true (.error "bad file") none "json" =
      .error (500, "Transcription failed: bad file") ∧
    Whisper.transcribe_audio true (.ok Whisper.resultHello) none "verbose_json" =
      .ok (Whisper.verbose_response Whisper.resultHello none) ∧
    (Whisper.verbose_response Whisper.resultHello none).hasKey "language" = true ∧
    Whisper.transcribe_audio true (.ok Whisper.resultHello) none "json" =
      .ok (Whisper.simple_response Whisper.resultHello) := by
  refine ⟨?_, ?_, ?_, ?_, ?_⟩
  · exact (C9_transcription_endpoint false (.ok Whisper.resultHello) none "json").1 rfl
  · exact (C9_transcription_endpoint true (.error "bad file") none "json").2.1 rfl
      "bad file" rfl
  · exact (((C9_transcription_endpoint true (.ok Whisper.resultHello) none
      "verbose_json").2.2.2 rfl Whisper.resultHello rfl).1 rfl).1
  · exact (((C9_transcription_endpoint true (.ok Whisper.resultHello) none
      "verbose_json").2.2.2 rfl Whisper.resultHello rfl).1 rfl).2.2.1
  · exact (((C9_transcription_endpoint true (.ok Whisper.resultHello) none
      "json").2.2.2 rfl Whisper.resultHello rfl).2 (by decide)).1

/-- C9 counterexample: with the default `response_format = "json"` the
successful response is `{"text": ...}` only - it has no `language` and no
`segments` field, contradicting the claim that every successful response
carries all three. -/
theorem C9_default_format_counterexample :
    Whisper.transcribe_audio true (.ok Whisper.resultHello) none "json" =
      .ok (.obj [("text", .str "hello")]) ∧
    Json.hasKey (.obj [("text", .str "hello")]) "text" = true ∧
    Json.hasKey (.obj [("text", .str "hello")]) "language" = false ∧
    Json.hasKey (.obj [("text", .str "hello")]) "segments" = false := by
  refine ⟨rfl, by decide, by decide, by decide⟩

/-- C10: the quality-analysis wrapper is a total function whose report has
`overall_pass = false` (with the exception text recorded) whenever any
step of loading or analysis raises; `overall_pass = true` is only possible
when every step succeeded and the quality gate itself passed. -/
theorem C10_analysis_never_raises (analysis : Except String QAGate.QualityMetrics) :
    (∀ e, analysis = .error e →
      (QAWrap.analyze_audio_quality analysis).overall_pass = false ∧
      (QAWrap.analyze_audio_quality analysis).error = some e ∧
      (QAWrap.analyze_audio_quality analysis).quality_check = none) ∧
    (∀ m, analysis = .ok m →
      (QAWrap.analyze_audio_quality analysis).overall_pass =
        (QAGate.validate_quality_standards m).overall_pass ∧
      (QAWrap.analyze_audio_quality analysis).error = none) ∧
    ((QAWrap.analyze_audio_quality analysis).overall_pass = true →
      ∃ m, analysis = .ok m ∧
        (QAGate.validate_quality_standards m).overall_pass = true) := by
  refine ⟨?_, ?_, ?_⟩
  · intro e he
    subst he
    exact ⟨rfl, rfl, rfl⟩
  · intro m hm
    subst hm
    exact ⟨rfl, rfl⟩
  · intro hpass
    cases hana : analysis with
    | error e =>
      rw [hana] at hpass
      simp [QAWrap.analyze_audio_quality] at hpass
    | ok m =>
      rw [hana] at hpass
      exact ⟨m, rfl, hpass⟩

/-- C10 witness: an unanalyzable file (loading raised) yields a report
with `overall_pass = false` carrying the error text. -/
theorem C10_analysis_never_raises_witness :
    (QAWrap.analyze_audio_quality (.error "load failed")).overall_pass = false ∧
    (QAWrap.analyze_audio_quality (.error "load failed")).error = some "load failed" := by
  have h := (C10_analysis_never_raises (.error "load failed")).1 "load failed" rfl
  exact ⟨h.1, h.2.1⟩

set_option maxRecDepth 40000

/-- Helper: summing an indicator over a list counts the matching items. -/
theorem sum_ite_count (l : List ℕ) (p : ℕ → Bool) :
    (l.map (fun i => if p i then (1 : ℚ) else 0)).sum = ((l.filter p).length : ℚ) := by
  induction l with
  | nil => simp
  | cons a t ih =>
    by_cases h : p a
    · simp only [List.map_cons, List.sum_cons, List.filter_cons, h, if_true, ih,
        List.length_cons]
      push_cast
      ring
    · simp [List.filter_cons, h, ih]

/-- Helper: the squared synthetic sample is the noise-region indicator. -/
theorem synth_signal_sq (i : ℕ) :
    (Silence.synth_signal i) ^ 2 = (if Silence.noiseB i then (1 : ℚ) else 0) := by
  unfold Silence.synth_signal Silence.noiseB
  by_cases h1 : i < 1000
  · by_cases h2 : i % 2 = 0 <;> simp [h1, h2] <;> norm_num
  · by_cases h3 : i < 3000
    · have h4 : ¬ 3000 ≤ i := by omega
      simp [h1, h3, h4]
    · have h4 : 3000 ≤ i := by omega
      by_cases h2 : i % 2 = 0 <;> simp [h1, h3, h4, h2] <;> norm_num

/-- Helper: on the synthetic waveform the as-written (axis-0) energy
vector is the vector of per-offset noise counts. -/
theorem frame_energy_synth_eq :
    Silence.frame_energy Silence.synth_signal 4000 1000 =
      (List.range 25).map (fun k => (Silence.countA k : ℚ)) := by
  simp only [Silence.frame_energy, Silence.frame_length, Silence.hop_length,
    Silence.n_frames]
  norm_num
  intro k _
  rw [List.map_congr_left (fun j _ => synth_signal_sq (j * 10 + k)), sum_ite_count]
  rfl

/-- Helper: on the synthetic waveform the per-frame energy vector is the
vector of per-frame noise counts. -/
theorem frame_energy_per_frame_synth_eq :
    Silence.frame_energy_per_frame Silence.synth_signal 4000 1000 =
      (List.range 398).map (fun j => (Silence.countF j : ℚ)) := by
  simp only [Silence.frame_energy_per_frame, Silence.frame_length, Silence.hop_length,
    Silence.n_frames]
  norm_num
  intro j _
  rw [List.map_congr_left (fun k _ => synth_signal_sq (j * 10 + k)), sum_ite_count]
  rfl

/-- Helper: every as-written energy count lies in [194, 200]. -/
theorem countA_bounds :
    ((List.range 25).all
      (fun k => decide (194 ≤ Silence.countA k) && decide (Silence.countA k ≤ 200))) = true := by
  decide

/-- Helper: exactly 198 of the 398 frames contain only silence. -/
theorem countF_zeros :
    ((List.range 398).countP (fun j => Silence.countF j == 0)) = 198 := by
  decide

/-- Helper: every frame holds at most 25 samples, hence count ≤ 25. -/
theorem countF_le : ((List.range 398).all (fun j => decide (Silence.countF j ≤ 25))) = true := by
  decide

/-- Helper: a valid `getD` index yields a member of the list. -/
theorem getD_mem_of_lt {l : List ℚ} {i : ℕ} (h : i < l.length) : l.getD i 0 ∈ l := by
  rw [l.getD_eq_getElem 0 h]
  exact List.getElem_mem h

/-- Helper: the median of a non-empty list is bounded by any upper bound
of its entries. -/
theorem np_median_le (l : List ℚ) (hne : 0 < l.length) (B : ℚ)
    (hB : ∀ x ∈ l, x ≤ B) : Silence.np_median l ≤ B := by
  unfold Silence.np_median
  have hperm : (l.mergeSort (fun a b => a ≤ b)).Perm l := List.mergeSort_perm l _
  have hlen : (l.mergeSort (fun a b => a ≤ b)).length = l.length := hperm.length_eq
  have hmem : ∀ i, i < l.length → (l.mergeSort (fun a b => a ≤ b)).getD i 0 ∈ l := by
    intro i hi
    exact hperm.subset (getD_mem_of_lt (by omega))
  by_cases hpar : l.length % 2 = 1
  · rw [if_pos hpar]
    exact hB _ (hmem _ (by omega))
  · rw [if_neg hpar]
    have ha := hB _ (hmem (l.length / 2 - 1) (by omega))
    have hb := hB _ (hmem (l.length / 2) (by omega))
    linarith

/-- Helper: the median of a non-empty even-length list of non-negative
entries is positive when fewer than half of the entries are zero. -/
theorem np_median_pos (l : List ℚ) (heven : l.length % 2 = 0) (hlen : 0 < l.length)
    (h0 : ∀ x ∈ l, 0 ≤ x) (hz : l.count 0 < l.length / 2) :
    0 < Silence.np_median l := by
  unfold Silence.np_median
  have hperm : (l.mergeSort (fun a b => a ≤ b)).Perm l := List.mergeSort_perm l _
  have hsorted : (l.mergeSort (fun a b => a ≤ b)).Sorted (· ≤ ·) := List.sorted_mergeSort' l
  have hlen' : (l.mergeSort (fun a b => a ≤ b)).length = l.length := hperm.length_eq
  set s := l.mergeSort (fun a b => a ≤ b) with hs
  have hge2 : 2 ≤ l.length := by omega
  have hi0 : l.length / 2 - 1 < s.length := by omega
  have hi1 : l.length / 2 < s.length := by omega
  have h0s : ∀ x ∈ s, 0 ≤ x := fun x hx => h0 x (hperm.subset hx)
  have hpos0 : 0 < s.getD (l.length / 2 - 1) 0 := by
    by_contra hle
    push_neg at hle
    have hmem0 : s.getD (l.length / 2 - 1) 0 ∈ s := getD_mem_of_lt hi0
    have hzero : s.getD (l.length / 2 - 1) 0 = 0 := le_antisymm hle (h0s _ hmem0)
    rw [s.getD_eq_getElem 0 hi0] at hzero
    have hallz : ∀ j (hj : j < s.length), j ≤ l.length / 2 - 1 → s[j] = 0 := by
      intro j hj hji
      have hle2 : s[j] ≤ s[l.length / 2 - 1] := by
        rcases eq_or_lt_of_le hji with heq | hlt
        · subst heq; exact le_refl _
        · exact List.Sorted.rel_get_of_lt hsorted (by simpa using hlt)
      have h0j := h0s _ (List.getElem_mem hj)
      rw [hzero] at hle2
      linarith
    have htake : s.take (l.length / 2 - 1 + 1) = List.replicate (l.length / 2 - 1 + 1) (0 : ℚ) := by
      apply List.eq_replicate.mpr
      constructor
      · rw [List.length_take]
        omega
      · intro b hb
        rw [List.mem_take_iff_getElem] at hb
        obtain ⟨i, hi, hx⟩ := hb
        rw [← hx]
        exact hallz i (lt_min_iff.mp hi).2 (by have := (lt_min_iff.mp hi).1; omega)
    have hsub : List.Sublist (List.replicate (l.length / 2 - 1 + 1) (0 : ℚ)) s := by
      rw [← htake]
      exact List.take_sublist _ _
    have hcount : l.length / 2 - 1 + 1 ≤ s.count 0 :=
      List.le_count_iff_replicate_sublist.mpr hsub
    rw [hperm.count_eq] at hcount
    omega
  have hpos1 : 0 < s.getD (l.length / 2) 0 := by
    have hlt : l.length / 2 - 1 < l.length / 2 := by omega
    have hmono := List.Sorted.rel_get_of_lt hsorted
      (show (⟨l.length / 2 - 1, hi0⟩ : Fin s.length) < ⟨l.length / 2, hi1⟩ by simpa using hlt)
    simp only [List.get_eq_getElem] at hmono
    rw [s.getD_eq_getElem 0 hi1]
    have hp : 0 < s[l.length / 2 - 1] := by rwa [s.getD_eq_getElem 0 hi0] at hpos0
    linarith
  rw [if_neg (by omega : ¬ l.length % 2 = 1)]
  linarith

/-- Helper: the as-written silence analysis reports ratio 0 on the
synthetic waveform: every per-offset energy sums noise from the whole
file, so no entry falls below 1% of the median. -/
theorem silence_ratio_as_written_zero :
    Silence.silence_ratio Silence.synth_signal 4000 1000 = 0 := by
  unfold Silence.silence_ratio
  rw [frame_energy_synth_eq]
  have hbounds : ∀ x ∈ (List.range 25).map (fun k => (Silence.countA k : ℚ)),
      194 ≤ x ∧ x ≤ 200 := by
    intro x hx
    rw [List.mem_map] at hx
    obtain ⟨k, hk, rfl⟩ := hx
    have hall := List.all_eq_true.mp countA_bounds k hk
    rw [Bool.and_eq_true, decide_eq_true_eq, decide_eq_true_eq] at hall
    exact ⟨by exact_mod_cast hall.1, by exact_mod_cast hall.2⟩
  have hlen : ((List.range 25).map (fun k => (Silence.countA k : ℚ))).length = 25 := by
    simp
  have hmed : Silence.np_median ((List.range 25).map fun k => (Silence.countA k : ℚ)) ≤ 200 :=
    np_median_le _ (by rw [hlen]; norm_num) 200 (fun x hx => (hbounds x hx).2)
  simp only [Silence.silence_ratio_of]
  have hfil : ((List.range 25).map (fun k => (Silence.countA k : ℚ))).filter
      (fun e => decide (e < Silence.np_median
        ((List.range 25).map fun k => (Silence.countA k : ℚ)) * 0.01)) = [] := by
    apply List.filter_eq_nil_iff.mpr
    intro e he
    simp only [decide_eq_true_eq, not_lt]
    have h1 := (hbounds e he).1
    nlinarith [hmed]
  rw [hfil, hlen]
  norm_num

/-- Helper: the spec's per-frame silence analysis reports ratio 198/398 =
99/199 on the synthetic waveform (the 198 all-zero frames are silent). -/
theorem silence_ratio_per_frame_val :
    Silence.silence_ratio_per_frame Silence.synth_signal 4000 1000 = 99 / 199 := by
  unfold Silence.silence_ratio_per_frame
  rw [frame_energy_per_frame_synth_eq]
  have hlen : ((List.range 398).map (fun j => (Silence.countF j : ℚ))).length = 398 := by
    simp
  have hnn : ∀ x ∈ (List.range 398).map (fun j => (Silence.countF j : ℚ)), 0 ≤ x := by
    intro x hx
    rw [List.mem_map] at hx
    obtain ⟨j, _, rfl⟩ := hx
    positivity
  have hub : ∀ x ∈ (List.range 398).map (fun j => (Silence.countF j : ℚ)), x ≤ 25 := by
    intro x hx
    rw [List.mem_map] at hx
    obtain ⟨j, hj, rfl⟩ := hx
    have hall := List.all_eq_true.mp countF_le j hj
    rw [decide_eq_true_eq] at hall
    exact_mod_cast hall
  have hcount : ((List.range 398).map (fun j => (Silence.countF j : ℚ))).count 0 = 198 := by
    have h1 : ((List.range 398).map (fun j => (Silence.countF j : ℚ))).count 0 =
        ((List.range 398).map (fun j => (Silence.countF j : ℚ))).countP
          (fun b => b == (0 : ℚ)) := by
      rw [List.count]
    rw [h1, List.countP_map]
    rw [List.countP_congr ?_]
    · exact countF_zeros
    · intro j _
      simp [Function.comp]
  have hmedle : Silence.np_median ((List.range 398).map (fun j => (Silence.countF j : ℚ))) ≤ 25 :=
    np_median_le _ (by rw [hlen]; norm_num) 25 hub
  have hmedpos : 0 < Silence.np_median ((List.range 398).map (fun j => (Silence.countF j : ℚ))) := by
    apply np_median_pos _ (by rw [hlen]) (by rw [hlen]; norm_num) hnn
    rw [hcount, hlen]
    norm_num
  simp only [Silence.silence_ratio_of]
  have hsil : (((List.range 398).map (fun j => (Silence.countF j : ℚ))).filter
      (fun e => decide (e < Silence.np_median
        ((List.range 398).map fun j => (Silence.countF j : ℚ)) * 0.01))).length = 198 := by
    rw [← List.countP_eq_length_filter, List.countP_map]
    rw [List.countP_congr ?_]
    · exact countF_zeros
    · intro j _
      simp only [Function.comp_apply, decide_eq_true_eq, beq_iff_eq]
      constructor
      · intro hlt
        by_contra hne
        have h1 : 1 ≤ Silence.countF j := Nat.one_le_iff_ne_zero.mpr hne
        have h2 : (1 : ℚ) ≤ (Silence.countF j : ℚ) := by exact_mod_cast h1
        nlinarith [hmedle]
      · intro h0
        rw [h0]
        push_cast
        nlinarith [hmedpos]
  rw [hsil, hlen]
  norm_num

/-- C5: the silence analysis of qa.py, as written, uses
`librosa.util.frame(..., axis=0)` (frames on the leading axis) and then
`np.sum(frames ** 2, axis=0)`, which sums over the frame index and yields
one energy per within-frame offset; on the claimed synthetic waveform
(1 s noise + 2 s exact silence + 1 s noise) it therefore reports
`silence_ratio = 0`, violating the claimed band 0.5 ± 10%.  The per-frame
energies that the code's own comments and variable names
(`total_frames`, `silent_frames`) describe would give 99/199 ≈ 0.497,
inside the claimed band - so the claim matches the evident intent and the
code's axis handling is the slip. -/
theorem C5_silence_ratio_code_bug :
    Silence.silence_ratio Silence.synth_signal 4000 1000 = 0 ∧
    ¬ (|Silence.silence_ratio Silence.synth_signal 4000 1000 - 1/2| ≤ (1/10) * (1/2)) ∧
    Silence.silence_ratio_per_frame Silence.synth_signal 4000 1000 = 99 / 199 ∧
    |Silence.silence_ratio_per_frame Silence.synth_signal 4000 1000 - 1/2| ≤ (1/10) * (1/2) := by
  refine ⟨silence_ratio_as_written_zero, ?_, silence_ratio_per_frame_val, ?_⟩
  · rw [silence_ratio_as_written_zero]
    rw [abs_le]
    norm_num
  · rw [silence_ratio_per_frame_val]
    rw [abs_le]
    constructor <;> norm_num

/-- Helper: digit characters are digits. -/
theorem isDigitB_digitChar {d : ℕ} (h : d < 10) :
    MetaJson.isDigitB (MetaJson.digitChar d) = true := by
  interval_cases d <;> decide

/-- Helper: reading back a digit character gives the digit. -/
theorem digitVal_digitChar {d : ℕ} (h : d < 10) :
    MetaJson.digitVal (MetaJson.digitChar d) = d := by
  interval_cases d <;> decide

/-- Helper: a decimal rendering is never empty. -/
theorem natChars_ne_nil (n : ℕ) : MetaJson.natChars n ≠ [] := by
  unfold MetaJson.natChars
  split
  · simp
  · rename_i h
    simp [Nat.digits_ne_nil_iff_ne_zero.mpr h]

/-- Helper: every character of a decimal rendering is a digit. -/
theorem natChars_all_digits (n : ℕ) :
    ∀ c ∈ MetaJson.natChars n, MetaJson.isDigitB c = true := by
  unfold MetaJson.natChars
  split
  · intro c hc
    simp at hc
    subst hc
    decide
  · intro c hc
    simp only [List.mem_map, List.mem_reverse] at hc
    obtain ⟨d, hd, rfl⟩ := hc
    exact isDigitB_digitChar (Nat.digits_lt_base (by norm_num) hd)

/-- Helper: decoding the digits of a decimal rendering recovers the
number. -/
theorem digitsToNat_natChars (n : ℕ) :
    MetaJson.digitsToNat ((MetaJson.natChars n).map MetaJson.digitVal) = n := by
  unfold MetaJson.natChars MetaJson.digitsToNat
  split
  · rename_i h
    subst h
    decide
  · rw [List.map_map]
    have hcong : List.map (MetaJson.digitVal ∘ MetaJson.digitChar) (Nat.digits 10 n).reverse
        = (Nat.digits 10 n).reverse := by
      have hpt : ∀ d ∈ (Nat.digits 10 n).reverse,
          (MetaJson.digitVal ∘ MetaJson.digitChar) d = id d := by
        intro d hd
        simp only [Function.comp_apply, id_eq]
        exact digitVal_digitChar (Nat.digits_lt_base (by norm_num) (List.mem_reverse.mp hd))
      rw [List.map_congr_left hpt, List.map_id]
    rw [hcong, List.reverse_reverse]
    exact Nat.ofDigits_digits 10 n

/-- Helper: reading a run of digit characters stops exactly at the first
non-digit. -/
theorem readDigits_append (dcs rest : List Char)
    (hall : ∀ c ∈ dcs, MetaJson.isDigitB c = true)
    (hrest : MetaJson.numGuard (.num 0) rest) :
    MetaJson.readDigits (dcs ++ rest) = (dcs.map MetaJson.digitVal, rest) := by
  induction dcs with
  | nil =>
    simp only [List.nil_append, List.map_nil]
    cases rest with
    | nil => rfl
    | cons c cs =>
      simp only [MetaJson.numGuard] at hrest
      simp [MetaJson.readDigits, hrest]
  | cons c cs ih =>
    have hc := hall c (List.mem_cons_self c cs)
    have ih2 := ih (fun a ha => hall a (List.mem_cons_of_mem c ha))
    simp only [List.cons_append, MetaJson.readDigits, hc, if_true, List.append_eq]
    rw [ih2]
    simp

/-- Helper: reading a plain string body stops at the closing quote. -/
theorem readStringChars_append (s rest : List Char)
    (h : ∀ c ∈ s, MetaJson.plainChar c = true) :
    MetaJson.readStringChars (s ++ '"' :: rest) = some (s, rest) := by
  induction s with
  | nil => simp [MetaJson.readStringChars]
  | cons c cs ih =>
    have hc := h c (List.mem_cons_self c cs)
    have hne : ¬ (c = '"') := by
      intro he
      subst he
      simp [MetaJson.plainChar] at hc
    have ih2 := ih (fun a ha => h a (List.mem_cons_of_mem c ha))
    simp only [List.cons_append, MetaJson.readStringChars, if_neg hne, List.append_eq]
    rw [ih2]

/-- Helper: whitespace skipping is the identity on a non-whitespace head. -/
theorem skipWs_not_ws {c : Char} (cs : List Char) (h : PyStr.wsChar c = false) :
    MetaJson.skipWs (c :: cs) = c :: cs := by
  simp [MetaJson.skipWs, h]

/-- Helper: a character that can start a printed value is not whitespace. -/
theorem wsChar_of_goodHead {c : Char} (h : MetaJson.goodHead c = true) :
    PyStr.wsChar c = false := by
  by_contra hws
  rw [Bool.not_eq_false] at hws
  have hcase : ((c = ' ' ∨ c = '\t') ∨ c = '\n') ∨ c = '\r' := by
    simpa [PyStr.wsChar] using hws
  rcases hcase with ((rfl | rfl) | rfl) | rfl <;> exact absurd h (by decide)

/-- Helper: a character that can start a printed value differs from any
character that cannot. -/
theorem ne_of_goodHead {c c0 : Char} (h : MetaJson.goodHead c = true)
    (h0 : MetaJson.goodHead c0 = false) : c ≠ c0 := by
  intro he
  subst he
  rw [h] at h0
  cases h0

/-- Helper: every printed JSON value starts with a good-head character. -/
theorem printJson_goodHead (j : Json) :
    ∃ c tl, MetaJson.printJson j = c :: tl ∧ MetaJson.goodHead c = true := by
  cases j with
  | null => exact ⟨'n', ['u', 'l', 'l'], rfl, by decide⟩
  | jbool b =>
    cases b
    · exact ⟨'f', ['a', 'l', 's', 'e'], rfl, by decide⟩
    · exact ⟨'t', ['r', 'u', 'e'], rfl, by decide⟩
  | num n =>
    cases n with
    | ofNat m =>
      have h1 : MetaJson.printJson (.num (Int.ofNat m)) = MetaJson.natChars m := by
        simp [MetaJson.printJson, MetaJson.intChars]
      rcases hnc : MetaJson.natChars m with _ | ⟨c, tl⟩
      · exact absurd hnc (natChars_ne_nil m)
      · refine ⟨c, tl, by rw [h1, hnc], ?_⟩
        have hc := natChars_all_digits m c (by rw [hnc]; exact List.mem_cons_self c tl)
        simp [MetaJson.goodHead, hc]
    | negSucc m =>
      refine ⟨'-', MetaJson.natChars (m + 1), ?_, by decide⟩
      simp [MetaJson.printJson, MetaJson.intChars, Int.negSucc_lt_zero]
  | fnum q => exact ⟨'0', [], rfl, by decide⟩
  | str s => exact ⟨'"', s.data ++ ['"'], rfl, by decide⟩
  | arr xs => exact ⟨'[', MetaJson.printList xs ++ [']'], rfl, by decide⟩
  | obj fs => exact ⟨'\x7b', MetaJson.printFields fs ++ ['\x7d'], rfl, by decide⟩

/-- Helper: one fuel unit is always needed. -/
theorem fuelJson_pos (j : Json) : 1 ≤ MetaJson.fuelJson j := by
  cases j <;> simp [MetaJson.fuelJson]

/-- Helper: non-digit heads satisfy the number guard. -/
theorem numGuard_not_digit (j : Json) (c : Char) (hc : MetaJson.isDigitB c = false)
    (cs : List Char) : MetaJson.numGuard j (c :: cs) := by
  cases j <;> simp [MetaJson.numGuard, hc]

/-- Helper: the empty rest satisfies the number guard. -/
theorem numGuard_nil (j : Json) : MetaJson.numGuard j [] := by
  cases j <;> simp [MetaJson.numGuard]

/-- Helper: a printed non-empty element list starts with its first
element's rendering. -/
theorem printList_cons_ex (x : Json) (xs : List Json) :
    ∃ T, MetaJson.printList (x :: xs) = MetaJson.printJson x ++ T := by
  cases xs with
  | nil => exact ⟨[], by simp [MetaJson.printList]⟩
  | cons y ys => exact ⟨',' :: MetaJson.printList (y :: ys), rfl⟩

/-- Helper: the number guard does not depend on the numeral. -/
theorem numGuard_num_any {n n' : ℤ} {rest : List Char}
    (h : MetaJson.numGuard (.num n) rest) : MetaJson.numGuard (.num n') rest := by
  cases rest <;> simpa [MetaJson.numGuard] using h

/-- Helper: parser computation on a `[` head. -/
theorem parseJson_cons_lbrack (fuel : ℕ) (r : List Char) :
    MetaJson.parseJson (fuel + 1) ('[' :: r) =
      (if MetaJson.headIs (MetaJson.skipWs r) ']' then
        some (.arr [], (MetaJson.skipWs r).tail)
      else
        match MetaJson.parseElems fuel (MetaJson.skipWs r) with
        | some (xs, r3) => some (.arr xs, r3)
        | none => none) := rfl

/-- Helper: parser computation on a `{` head. -/
theorem parseJson_cons_lbrace (fuel : ℕ) (r : List Char) :
    MetaJson.parseJson (fuel + 1) ('\x7b' :: r) =
      (if MetaJson.headIs (MetaJson.skipWs r) '\x7d' then
        some (.obj [], (MetaJson.skipWs r).tail)
      else
        match MetaJson.parseFields fuel (MetaJson.skipWs r) with
        | some (fs, r3) => some (.obj fs, r3)
        | none => none) := rfl

/-- Helper: parser computation on a quote head. -/
theorem parseJson_cons_quote (fuel : ℕ) (r : List Char) :
    MetaJson.parseJson (fuel + 1) ('"' :: r) =
      (match MetaJson.readStringChars r with
      | some (s, r2) => some (.str ⟨s⟩, r2)
      | none => none) := rfl

/-- Helper: parser computation on a minus head. -/
theorem parseJson_cons_minus (fuel : ℕ) (r : List Char) :
    MetaJson.parseJson (fuel + 1) ('-' :: r) =
      (match MetaJson.readDigits r with
      | ([], _) => none
      | (ds, r2) => some (.num (-(MetaJson.digitsToNat ds : ℤ)), r2)) := rfl

/-- Helper: parser computation on a digit head. -/
theorem parseJson_cons_digit (fuel : ℕ) (c : Char) (r : List Char)
    (hc : MetaJson.isDigitB c = true) (hws : PyStr.wsChar c = false) :
    MetaJson.parseJson (fuel + 1) (c :: r) =
      (match MetaJson.readDigits (c :: r) with
      | (ds, r2) => some (.num (MetaJson.digitsToNat ds : ℤ), r2)) := by
  simp only [MetaJson.parseJson, skipWs_not_ws _ hws, hc, if_true]

/-- Helper: element-list parser computation. -/
theorem parseElems_succ (fuel : ℕ) (cs : List Char) :
    MetaJson.parseElems (fuel + 1) cs =
      (match MetaJson.parseJson fuel cs with
      | some (x, r) =>
        (match MetaJson.skipWs r with
        | ',' :: r2 =>
          (match MetaJson.parseElems fuel r2 with
          | some (xs, r3) => some (x :: xs, r3)
          | none => none)
        | ']' :: r2 => some ([x], r2)
        | _ => none)
      | none => none) := rfl

/-- Helper: field parser computation on the opening quote of a key. -/
theorem parseFields_cons_quote (fuel : ℕ) (r : List Char) :
    MetaJson.parseFields (fuel + 1) ('"' :: r) =
      (match MetaJson.readStringChars r with
      | some (k, r2) =>
        (match MetaJson.skipWs r2 with
        | ':' :: r3 =>
          (match MetaJson.parseJson fuel r3 with
          | some (v, r4) =>
            (match MetaJson.skipWs r4 with
            | ',' :: r5 =>
              (match MetaJson.parseFields fuel r5 with
              | some (fs, r6) => some ((⟨k⟩, v) :: fs, r6)
              | none => none)
            | '\x7d' :: r5 => some ([(⟨k⟩, v)], r5)
            | _ => none)
          | none => none)
        | _ => none)
      | none => none) := rfl

/-- Helper: a printed non-empty field list exposes its first key-value
pair. -/
theorem printFields_cons_ex (k : String) (v : Json) (fs : List (String × Json)) :
    ∃ T, MetaJson.printFields ((k, v) :: fs) =
      '"' :: ((k.data ++ '"' :: ':' :: MetaJson.printJson v) ++ T) := by
  cases fs with
  | nil => exact ⟨[], by simp [MetaJson.printFields]⟩
  | cons f fs' => exact ⟨',' :: MetaJson.printFields (f :: fs'), by simp [MetaJson.printFields]⟩

/-- Helper: round-trip of the printer and the reader, by induction on the
fuel: a printed plain value followed by guarded text parses back to
exactly that value. -/
theorem parse_print (fuel : ℕ) :
    (∀ (j : Json) (rest : List Char), MetaJson.plainJson j = true →
      MetaJson.numGuard j rest → MetaJson.fuelJson j ≤ fuel →
      MetaJson.parseJson fuel (MetaJson.printJson j ++ rest) = some (j, rest)) ∧
    (∀ (x : Json) (xs : List Json) (rest : List Char),
      MetaJson.plainList (x :: xs) = true → MetaJson.fuelElems (x :: xs) ≤ fuel →
      MetaJson.parseElems fuel (MetaJson.printList (x :: xs) ++ ']' :: rest) =
        some (x :: xs, rest)) ∧
    (∀ (k : String) (v : Json) (fs : List (String × Json)) (rest : List Char),
      MetaJson.plainFields ((k, v) :: fs) = true →
      MetaJson.fuelFields ((k, v) :: fs) ≤ fuel →
      MetaJson.parseFields fuel (MetaJson.printFields ((k, v) :: fs) ++ '\x7d' :: rest) =
        some ((k, v) :: fs, rest)) := by
  induction fuel with
  | zero =>
    refine ⟨?_, ?_, ?_⟩
    · intro j rest _ _ hf
      have := fuelJson_pos j
      omega
    · intro x xs rest _ hf
      have h1 : MetaJson.fuelElems (x :: xs) =
          1 + MetaJson.fuelJson x + MetaJson.fuelElems xs := rfl
      omega
    · intro k v fs rest _ hf
      have h1 : MetaJson.fuelFields ((k, v) :: fs) =
          1 + MetaJson.fuelJson v + MetaJson.fuelFields fs := rfl
      omega
  | succ fuel ih =>
    refine ⟨?_, ?_, ?_⟩
    · intro j rest hplain hguard hfuel
      cases j with
      | null => rfl
      | jbool b => cases b <;> rfl
      | fnum q => simp [MetaJson.plainJson] at hplain
      | str s =>
        have hplain' : ∀ c ∈ s.data, MetaJson.plainChar c = true := by
          simpa [MetaJson.plainJson, MetaJson.plainStr, List.all_eq_true] using hplain
        show MetaJson.parseJson (fuel + 1)
          (('"' :: (s.data ++ ['"'])) ++ rest) = some (.str s, rest)
        simp only [List.cons_append, List.append_assoc, List.singleton_append,
          List.nil_append]
        rw [parseJson_cons_quote, readStringChars_append s.data rest hplain']
      | num n =>
        cases n with
        | ofNat m =>
          have hpr : MetaJson.printJson (.num (Int.ofNat m)) = MetaJson.natChars m := by
            simp [MetaJson.printJson, MetaJson.intChars]
          rcases hnc : MetaJson.natChars m with _ | ⟨c, tl⟩
          · exact absurd hnc (natChars_ne_nil m)
          have hcdig : MetaJson.isDigitB c = true :=
            natChars_all_digits m c (by rw [hnc]; exact List.mem_cons_self c tl)
          have hws : PyStr.wsChar c = false :=
            wsChar_of_goodHead (by simp [MetaJson.goodHead, hcdig])
          rw [hpr, hnc]
          simp only [List.cons_append]
          rw [parseJson_cons_digit fuel c (tl ++ rest) hcdig hws]
          have hrd : MetaJson.readDigits (c :: (tl ++ rest)) =
              ((c :: tl).map MetaJson.digitVal, rest) := by
            rw [show c :: (tl ++ rest) = (c :: tl) ++ rest from rfl]
            exact readDigits_append (c :: tl) rest
              (by rw [← hnc]; exact natChars_all_digits m) (numGuard_num_any hguard)
          have hval : MetaJson.digitsToNat ((c :: tl).map MetaJson.digitVal) = m := by
            rw [← hnc]
            exact digitsToNat_natChars m
          simp only [hrd, hval]
          rfl
        | negSucc m =>
          have hpr : MetaJson.printJson (.num (Int.negSucc m)) =
              '-' :: MetaJson.natChars (m + 1) := by
            simp [MetaJson.printJson, MetaJson.intChars, Int.negSucc_lt_zero]
          rcases hnc : MetaJson.natChars (m + 1) with _ | ⟨c, tl⟩
          · exact absurd hnc (natChars_ne_nil (m + 1))
          rw [hpr, hnc]
          simp only [List.cons_append]
          rw [parseJson_cons_minus]
          have hrd : MetaJson.readDigits ((c :: tl) ++ rest) =
              ((c :: tl).map MetaJson.digitVal, rest) :=
            readDigits_append (c :: tl) rest
              (by rw [← hnc]; exact natChars_all_digits (m + 1)) (numGuard_num_any hguard)
          have hval : MetaJson.digitsToNat ((c :: tl).map MetaJson.digitVal) = m + 1 := by
            rw [← hnc]
            exact digitsToNat_natChars (m + 1)
          have hval2 : MetaJson.digitsToNat
              (MetaJson.digitVal c :: tl.map MetaJson.digitVal) = m + 1 := by
            rw [← List.map_cons]
            exact hval
          have hneg : (-((m + 1 : ℕ) : ℤ)) = Int.negSucc m := by
            rw [Int.negSucc_eq]
            push_cast
            ring
          rw [show c :: (tl ++ rest) = (c :: tl) ++ rest from rfl]
          simp only [hrd, List.map_cons, hval2, hneg]
      | arr xs =>
        cases xs with
        | nil => rfl
        | cons x xs' =>
          obtain ⟨T, hT⟩ := printList_cons_ex x xs'
          obtain ⟨c, tl, hcx, hg⟩ := printJson_goodHead x
          have hws := wsChar_of_goodHead hg
          have hne : c ≠ ']' := ne_of_goodHead hg (by decide)
          have hplainL : MetaJson.plainList (x :: xs') = true := by
            simpa [MetaJson.plainJson] using hplain
          have hfuelL : MetaJson.fuelElems (x :: xs') ≤ fuel := by
            have h1 : MetaJson.fuelJson (.arr (x :: xs')) =
                1 + MetaJson.fuelElems (x :: xs') := rfl
            omega
          have hmain := ih.2.1 x xs' rest hplainL hfuelL
          have hskip : MetaJson.skipWs (MetaJson.printList (x :: xs') ++ ']' :: rest) =
              MetaJson.printList (x :: xs') ++ ']' :: rest := by
            rw [hT, hcx]
            simp only [List.cons_append, List.append_assoc]
            exact skipWs_not_ws _ hws
          have hhead : MetaJson.headIs
              (MetaJson.printList (x :: xs') ++ ']' :: rest) ']' = false := by
            rw [hT, hcx]
            simp only [List.cons_append, List.append_assoc, MetaJson.headIs]
            simp [hne]
          show MetaJson.parseJson (fuel + 1)
            (('[' :: (MetaJson.printList (x :: xs') ++ [']'])) ++ rest) =
            some (.arr (x :: xs'), rest)
          simp only [List.cons_append, List.append_assoc, List.singleton_append,
            List.nil_append]
          rw [parseJson_cons_lbrack]
          simp only [hskip, hhead, Bool.false_eq_true, if_false, hmain]
      | obj fs =>
        cases fs with
        | nil => rfl
        | cons f fs' =>
          obtain ⟨k, v⟩ := f
          have hplainF : MetaJson.plainFields ((k, v) :: fs') = true := by
            simpa [MetaJson.plainJson] using hplain
          have hfuelF : MetaJson.fuelFields ((k, v) :: fs') ≤ fuel := by
            have h1 : MetaJson.fuelJson (.obj ((k, v) :: fs')) =
                1 + MetaJson.fuelFields ((k, v) :: fs') := rfl
            omega
          have hmain := ih.2.2 k v fs' rest hplainF hfuelF
          obtain ⟨T, hT⟩ := printFields_cons_ex k v fs'
          have hskip : MetaJson.skipWs
              (MetaJson.printFields ((k, v) :: fs') ++ '\x7d' :: rest) =
              MetaJson.printFields ((k, v) :: fs') ++ '\x7d' :: rest := by
            rw [hT]
            simp only [List.cons_append, List.append_assoc]
            exact skipWs_not_ws _ (by decide)
          have hhead : MetaJson.headIs
              (MetaJson.printFields ((k, v) :: fs') ++ '\x7d' :: rest) '\x7d' = false := by
            rw [hT]
            simp only [List.cons_append, List.append_assoc, MetaJson.headIs]
            decide
          show MetaJson.parseJson (fuel + 1)
            (('\x7b' :: (MetaJson.printFields ((k, v) :: fs') ++ ['\x7d'])) ++ rest) =
            some (.obj ((k, v) :: fs'), rest)
          simp only [List.cons_append, List.append_assoc, List.singleton_append,
            List.nil_append]
          rw [parseJson_cons_lbrace]
          simp only [hskip, hhead, Bool.false_eq_true, if_false, hmain]
    · intro x xs rest hplain hfuel
      have hplx : MetaJson.plainJson x = true := by
        simp only [MetaJson.plainList, Bool.and_eq_true] at hplain
        exact hplain.1
      cases xs with
      | nil =>
        have hfx : MetaJson.fuelJson x ≤ fuel := by
          have h1 : MetaJson.fuelElems [x] = 1 + MetaJson.fuelJson x + 0 := rfl
          omega
        have hx := ih.1 x (']' :: rest) hplx
          (numGuard_not_digit x ']' (by decide) rest) hfx
        show MetaJson.parseElems (fuel + 1)
          (MetaJson.printJson x ++ ']' :: rest) = some ([x], rest)
        have hsk : MetaJson.skipWs (']' :: rest) = ']' :: rest :=
          skipWs_not_ws _ (by decide)
        rw [parseElems_succ]
        simp only [hx, hsk]
      | cons y ys =>
        have hply : MetaJson.plainList (y :: ys) = true := by
          simp only [MetaJson.plainList, Bool.and_eq_true] at hplain ⊢
          exact hplain.2
        have hfx : MetaJson.fuelJson x ≤ fuel := by
          have h1 : MetaJson.fuelElems (x :: y :: ys) =
              1 + MetaJson.fuelJson x + MetaJson.fuelElems (y :: ys) := rfl
          omega
        have hfy : MetaJson.fuelElems (y :: ys) ≤ fuel := by
          have h1 : MetaJson.fuelElems (x :: y :: ys) =
              1 + MetaJson.fuelJson x + MetaJson.fuelElems (y :: ys) := rfl
          omega
        have hx := ih.1 x (',' :: (MetaJson.printList (y :: ys) ++ ']' :: rest)) hplx
          (numGuard_not_digit x ',' (by decide) _) hfx
        have hrest := ih.2.1 y ys rest hply hfy
        show MetaJson.parseElems (fuel + 1)
          ((MetaJson.printJson x ++ ',' :: MetaJson.printList (y :: ys)) ++ ']' :: rest) =
          some (x :: y :: ys, rest)
        have hsk : MetaJson.skipWs
            (',' :: (MetaJson.printList (y :: ys) ++ ']' :: rest)) =
            ',' :: (MetaJson.printList (y :: ys) ++ ']' :: rest) :=
          skipWs_not_ws _ (by decide)
        simp only [List.append_assoc, List.cons_append]
        rw [parseElems_succ]
        simp only [hx, hsk, hrest]
    · intro k v fs rest hplain hfuel
      have hplv : MetaJson.plainJson v = true := by
        simp only [MetaJson.plainFields, Bool.and_eq_true] at hplain
        exact hplain.1.2
      have hplk : ∀ c ∈ k.data, MetaJson.plainChar c = true := by
        simp only [MetaJson.plainFields, Bool.and_eq_true] at hplain
        simpa [MetaJson.plainStr, List.all_eq_true] using hplain.1.1
      have hfv : MetaJson.fuelJson v ≤ fuel := by
        have h1 : MetaJson.fuelFields ((k, v) :: fs) =
            1 + MetaJson.fuelJson v + MetaJson.fuelFields fs := rfl
        omega
      cases fs with
      | nil =>
        have hread : MetaJson.readStringChars
            (k.data ++ '"' :: ':' :: (MetaJson.printJson v ++ '\x7d' :: rest)) =
            some (k.data, ':' :: (MetaJson.printJson v ++ '\x7d' :: rest)) :=
          readStringChars_append k.data _ hplk
        have hsk1 : MetaJson.skipWs (':' :: (MetaJson.printJson v ++ '\x7d' :: rest)) =
            ':' :: (MetaJson.printJson v ++ '\x7d' :: rest) :=
          skipWs_not_ws _ (by decide)
        have hv := ih.1 v ('\x7d' :: rest) hplv
          (numGuard_not_digit v '\x7d' (by decide) rest) hfv
        have hsk2 : MetaJson.skipWs ('\x7d' :: rest) = '\x7d' :: rest :=
          skipWs_not_ws _ (by decide)
        show MetaJson.parseFields (fuel + 1)
          (('"' :: (k.data ++ '"' :: ':' :: MetaJson.printJson v)) ++ '\x7d' :: rest) =
          some ([(k, v)], rest)
        simp only [List.cons_append, List.append_assoc]
        rw [parseFields_cons_quote]
        simp only [hread, hsk1, hv, hsk2]
      | cons f fs2 =>
        obtain ⟨k2, v2⟩ := f
        have hplr : MetaJson.plainFields ((k2, v2) :: fs2) = true := by
          have h0 := hplain
          simp only [MetaJson.plainFields, Bool.and_eq_true] at h0 ⊢
          exact h0.2
        have hfr : MetaJson.fuelFields ((k2, v2) :: fs2) ≤ fuel := by
          have h1 : MetaJson.fuelFields ((k, v) :: (k2, v2) :: fs2) =
              1 + MetaJson.fuelJson v + MetaJson.fuelFields ((k2, v2) :: fs2) := rfl
          omega
        have hrest := ih.2.2 k2 v2 fs2 rest hplr hfr
        have hv := ih.1 v
          (',' :: (MetaJson.printFields ((k2, v2) :: fs2) ++ '\x7d' :: rest)) hplv
          (numGuard_not_digit v ',' (by decide) _) hfv
        have hread : MetaJson.readStringChars
            (k.data ++ '"' :: ':' :: (MetaJson.printJson v ++
              ',' :: (MetaJson.printFields ((k2, v2) :: fs2) ++ '\x7d' :: rest))) =
            some (k.data, ':' :: (MetaJson.printJson v ++
              ',' :: (MetaJson.printFields ((k2, v2) :: fs2) ++ '\x7d' :: rest))) :=
          readStringChars_append k.data _ hplk
        have hsk1 : MetaJson.skipWs (':' :: (MetaJson.printJson v ++
            ',' :: (MetaJson.printFields ((k2, v2) :: fs2) ++ '\x7d' :: rest))) =
            ':' :: (MetaJson.printJson v ++
              ',' :: (MetaJson.printFields ((k2, v2) :: fs2) ++ '\x7d' :: rest)) :=
          skipWs_not_ws _ (by decide)
        have hsk2 : MetaJson.skipWs
            (',' :: (MetaJson.printFields ((k2, v2) :: fs2) ++ '\x7d' :: rest)) =
            ',' :: (MetaJson.printFields ((k2, v2) :: fs2) ++ '\x7d' :: rest) :=
          skipWs_not_ws _ (by decide)
        show MetaJson.parseFields (fuel + 1)
          ((('"' :: (k.data ++ '"' :: ':' :: MetaJson.printJson v)) ++
            ',' :: MetaJson.printFields ((k2, v2) :: fs2)) ++ '\x7d' :: rest) =
          some ((k, v) :: (k2, v2) :: fs2, rest)
        simp only [List.cons_append, List.append_assoc]
        rw [parseFields_cons_quote]
        simp only [hread, hsk1, hv, hsk2, hrest]

/-- Helper: the fuel needed by a value is at most the length of its
printed form. -/
theorem fuel_le_print (n : ℕ) :
    (∀ j : Json, MetaJson.fuelJson j ≤ n →
      MetaJson.fuelJson j ≤ (MetaJson.printJson j).length) ∧
    (∀ xs : List Json, MetaJson.fuelElems xs ≤ n →
      MetaJson.fuelElems xs ≤ (MetaJson.printList xs).length + 1) ∧
    (∀ fs : List (String × Json), MetaJson.fuelFields fs ≤ n →
      MetaJson.fuelFields fs ≤ (MetaJson.printFields fs).length + 1) := by
  induction n with
  | zero =>
    refine ⟨?_, ?_, ?_⟩
    · intro j h
      have := fuelJson_pos j
      omega
    · intro xs h
      cases xs with
      | nil => simp [MetaJson.fuelElems]
      | cons x xs =>
        have h1 : MetaJson.fuelElems (x :: xs) =
            1 + MetaJson.fuelJson x + MetaJson.fuelElems xs := rfl
        omega
    · intro fs h
      cases fs with
      | nil => simp [MetaJson.fuelFields]
      | cons f fs =>
        obtain ⟨k, v⟩ := f
        have h1 : MetaJson.fuelFields ((k, v) :: fs) =
            1 + MetaJson.fuelJson v + MetaJson.fuelFields fs := rfl
        omega
  | succ n ih =>
    refine ⟨?_, ?_, ?_⟩
    · intro j h
      cases j with
      | null => simp [MetaJson.fuelJson, MetaJson.printJson]
      | jbool b => cases b <;> simp [MetaJson.fuelJson, MetaJson.printJson]
      | fnum q => simp [MetaJson.fuelJson, MetaJson.printJson]
      | num m =>
        have h1 : MetaJson.fuelJson (.num m) = 1 := rfl
        have h2 : MetaJson.printJson (.num m) = MetaJson.intChars m := rfl
        rw [h1, h2]
        by_cases hm : m < 0
        · simp [MetaJson.intChars, hm]
        · simp only [MetaJson.intChars, hm, if_false]
          have hlen := List.length_pos.mpr (natChars_ne_nil m.toNat)
          omega
      | str s =>
        have h1 : MetaJson.fuelJson (.str s) = 1 := rfl
        rw [h1]
        simp [MetaJson.printJson]
      | arr xs =>
        have h1 : MetaJson.fuelJson (.arr xs) = 1 + MetaJson.fuelElems xs := rfl
        have h2 : (MetaJson.printJson (.arr xs)).length =
            (MetaJson.printList xs).length + 2 := by
          simp [MetaJson.printJson]
        have h3 := ih.2.1 xs (by omega)
        omega
      | obj fs =>
        have h1 : MetaJson.fuelJson (.obj fs) = 1 + MetaJson.fuelFields fs := rfl
        have h2 : (MetaJson.printJson (.obj fs)).length =
            (MetaJson.printFields fs).length + 2 := by
          simp [MetaJson.printJson]
        have h3 := ih.2.2 fs (by omega)
        omega
    · intro xs h
      cases xs with
      | nil => simp [MetaJson.fuelElems]
      | cons x xs =>
        have h1 : MetaJson.fuelElems (x :: xs) =
            1 + MetaJson.fuelJson x + MetaJson.fuelElems xs := rfl
        have hp := fuelJson_pos x
        have h2 := ih.1 x (by omega)
        cases xs with
        | nil =>
          have h3 : MetaJson.printList [x] = MetaJson.printJson x := rfl
          have h4 : MetaJson.fuelElems ([] : List Json) = 0 := rfl
          rw [h3]
          omega
        | cons y ys =>
          have h3 : MetaJson.printList (x :: y :: ys) =
              MetaJson.printJson x ++ ',' :: MetaJson.printList (y :: ys) := rfl
          have h5 := ih.2.1 (y :: ys) (by omega)
          rw [h3]
          simp only [List.length_append, List.length_cons]
          omega
    · intro fs h
      cases fs with
      | nil => simp [MetaJson.fuelFields]
      | cons f fs =>
        obtain ⟨k, v⟩ := f
        have h1 : MetaJson.fuelFields ((k, v) :: fs) =
            1 + MetaJson.fuelJson v + MetaJson.fuelFields fs := rfl
        have hp := fuelJson_pos v
        have h2 := ih.1 v (by omega)
        cases fs with
        | nil =>
          have h3 : MetaJson.printFields [(k, v)] =
              '"' :: (k.data ++ '"' :: ':' :: MetaJson.printJson v) := rfl
          have h4 : MetaJson.fuelFields ([] : List (String × Json)) = 0 := rfl
          rw [h3]
          simp only [List.length_cons, List.length_append]
          omega
        | cons g fs2 =>
          obtain ⟨k2, v2⟩ := g
          have h3 : MetaJson.printFields ((k, v) :: (k2, v2) :: fs2) =
              ('"' :: (k.data ++ '"' :: ':' :: MetaJson.printJson v)) ++
                ',' :: MetaJson.printFields ((k2, v2) :: fs2) := rfl
          have h5 := ih.2.2 ((k2, v2) :: fs2) (by omega)
          rw [h3]
          simp only [List.length_append, List.length_cons]
          omega

/-- Helper: `json.load` after `json.dumps` is the identity on plain
values. -/
theorem loadJson_dumpJson (j : Json) (h : MetaJson.plainJson j = true) :
    MetaJson.loadJson (MetaJson.dumpJson j) = some j := by
  have hfl : MetaJson.fuelJson j ≤ (MetaJson.printJson j).length :=
    (fuel_le_print (MetaJson.fuelJson j)).1 j le_rfl
  have hp := (parse_print ((MetaJson.printJson j).length + 1)).1 j [] h
    (numGuard_nil j) (by omega)
  rw [List.append_nil] at hp
  show (match MetaJson.parseJson ((MetaJson.printJson j).length + 1)
      (MetaJson.printJson j) with
    | some (jv, rest) => if MetaJson.skipWs rest = [] then some jv else none
    | none => none) = some j
  rw [hp]
  rfl

/-- C7: for every metadata record the generation pipeline writes
(`generate_section1_conversation`, ielts_generator.py lines 104-118),
serializing it with `json.dump` and reloading it with `json.load`
returns exactly the record written; in particular the reloaded object's
`engine_used` field is the string value of the engine passed in and its
`is_offline_compatible` field is the offline flag passed in.  (The
plainness hypothesis states that the record's strings contain no quote
or backslash characters, which holds for everything the pipeline
writes.) -/
theorem C7_metadata_roundtrip (conversation_type generated_at html_player : String)
    (segments : List Meta1.SegmentInfo) (file_exists : String → Bool)
    (selected_engine : TTSM.TTSEngine) (use_offline_only : Bool)
    (h : MetaJson.plainJson (Meta1.build_metadata conversation_type generated_at
      html_player segments file_exists selected_engine use_offline_only) = true) :
    MetaJson.loadJson (MetaJson.dumpJson (Meta1.build_metadata conversation_type
        generated_at html_player segments file_exists selected_engine
        use_offline_only)) =
      some (Meta1.build_metadata conversation_type generated_at html_player segments
        file_exists selected_engine use_offline_only) ∧
    Json.lookup (Meta1.build_metadata conversation_type generated_at html_player
        segments file_exists selected_engine use_offline_only) "engine_used" =
      some (.str selected_engine.value) ∧
    Json.lookup (Meta1.build_metadata conversation_type generated_at html_player
        segments file_exists selected_engine use_offline_only) "is_offline_compatible" =
      some (.jbool use_offline_only) := by
  refine ⟨loadJson_dumpJson _ h, ?_, ?_⟩ <;> rfl

/-- Witness for C7 at a concrete metadata record. -/
theorem C7_metadata_roundtrip_witness :
    MetaJson.plainJson Meta1.metadataEx = true ∧
    (MetaJson.loadJson (MetaJson.dumpJson Meta1.metadataEx) = some Meta1.metadataEx ∧
     Json.lookup Meta1.metadataEx "engine_used" =
       some (.str TTSM.TTSEngine.edge_tts.value) ∧
     Json.lookup Meta1.metadataEx "is_offline_compatible" = some (.jbool false)) :=
  ⟨by decide,
   C7_metadata_roundtrip "swimming_lesson" "2026-10-12T00:00:00"
     "ielts_swimming_lesson_online.html" [Meta1.segEx] (fun _ => true) .edge_tts false
     (by decide)⟩
